import Mathlib

/-!
Verification development for the aithentic-scripts batch grading pipeline.

The JavaScript sources are shallowly embedded:
* JSON / JS values become the inductive `JSVal` (numbers are modelled as
  integers: every numeric datum the claims touch is integer-valued, and the
  JS `Number(String(n))` round trip is exact for integers);
* `undefined` is represented by `Option.none` at property-access sites;
* thrown `Error(msg)` values become `Except` errors carrying the message;
* the network transport of the invoker and the file/store collaborators of
  the batch handler become explicit function parameters.
-/

mutual

/-- A JavaScript/JSON value.  `vnan` stands for the JS `NaN` number (falsy,
propertyless); other numbers are modelled as integers, see the header.
Arrays and objects carry their own spine types (`JSList`, `JSFields`) so
that every traversal is structurally recursive. -/
inductive JSVal where
  | vnull : JSVal
  | vnan : JSVal
  | vstr : String → JSVal
  | vnum : Int → JSVal
  | vbool : Bool → JSVal
  | varr : JSList → JSVal
  | vobj : JSFields → JSVal

/-- The elements of a JS array. -/
inductive JSList where
  | nil : JSList
  | cons : JSVal → JSList → JSList

/-- The ordered own fields of a JS object. -/
inductive JSFields where
  | nil : JSFields
  | cons : String → JSVal → JSFields → JSFields

end

def JSList.ofList : List JSVal → JSList
  | [] => .nil
  | v :: rest => .cons v (JSList.ofList rest)

def JSList.toList : JSList → List JSVal
  | .nil => []
  | .cons v rest => v :: rest.toList

def JSFields.ofList : List (String × JSVal) → JSFields
  | [] => .nil
  | (k, v) :: rest => .cons k v (JSFields.ofList rest)

def JSFields.toList : JSFields → List (String × JSVal)
  | .nil => []
  | .cons k v rest => (k, v) :: rest.toList

/-- Build an object value from a field list. -/
def mkObj (l : List (String × JSVal)) : JSVal := .vobj (JSFields.ofList l)

/-- Build an array value from an element list. -/
def mkArr (l : List JSVal) : JSVal := .varr (JSList.ofList l)

/-- First-match field lookup in an object's field list.  JS objects have
unique keys, so first-match agrees with JS semantics. -/
def lookupField : JSFields → String → Option JSVal
  | .nil, _ => none
  | .cons k' v rest, k => if k' = k then some v else lookupField rest k

/-- JS property access `v[k]`: `none` models `undefined`.  Property access on
non-objects yields `undefined` in JS (on `null` it throws; no embedded code
path reads a property of `null`). -/
def jsGet (v : JSVal) (k : String) : Option JSVal :=
  match v with
  | .vobj fs => lookupField fs k
  | _ => none

/-- JS truthiness: `null`, `NaN`, `0`, `""` and `false` are falsy; objects
and arrays are always truthy. -/
def truthy : JSVal → Bool
  | .vnull => false
  | .vnan => false
  | .vstr s => !(s = "")
  | .vnum n => !(n = 0)
  | .vbool b => b
  | .varr _ => true
  | .vobj _ => true

/-- Truthiness of a possibly-`undefined` value (`undefined` is falsy). -/
def truthyOpt : Option JSVal → Bool
  | some v => truthy v
  | none => false

/-! ### JS whitespace, digits and `Number` conversion -/

/-- The character class of the JS regex `\s` (which coincides with the set
trimmed by `String.prototype.trim` and by `Number()` coercion). -/
def isJsWs (c : Char) : Bool :=
  c == '\x09' || c == '\x0A' || c == '\x0B' || c == '\x0C' || c == '\x0D' ||
  c == ' ' || c == '\xA0' || c == '\u1680' ||
  ('\u2000' ≤ c && c ≤ '\u200A') ||
  c == '\u2028' || c == '\u2029' || c == '\u202F' || c == '\u205F' ||
  c == '\u3000' || c == '\uFEFF'

/-- Strip leading and trailing JS whitespace from a character list. -/
def trimWsChars (cs : List Char) : List Char :=
  ((cs.dropWhile isJsWs).reverse.dropWhile isJsWs).reverse

def isDigitChar (c : Char) : Bool := '0' ≤ c && c ≤ '9'

def digitVal (c : Char) : Nat := c.toNat - 48

/-- The character of a decimal digit (only 0-9 occur). -/
def digitChar : Nat → Char
  | 0 => '0'
  | 1 => '1'
  | 2 => '2'
  | 3 => '3'
  | 4 => '4'
  | 5 => '5'
  | 6 => '6'
  | 7 => '7'
  | 8 => '8'
  | 9 => '9'
  | _ => '*' 

/-- Value of a big-endian list of decimal digit characters. -/
def digitsVal (cs : List Char) : Nat :=
  cs.foldl (fun acc c => 10 * acc + digitVal c) 0

/-- Value of a little-endian list of decimal digits. -/
def digitsValLE : List Nat → Nat
  | [] => 0
  | d :: ds => d + 10 * digitsValLE ds

/-- Little-endian decimal digits, by fuel (structural so that concrete
values reduce); `fuel ≥ n` always suffices since `n / 10 < n`. -/
def natDigitsRevAux : Nat → Nat → List Nat
  | 0, _ => []
  | _, 0 => []
  | fuel + 1, n => (n % 10) :: natDigitsRevAux fuel (n / 10)

/-- Little-endian decimal digits of a natural number (empty for 0). -/
def natDigitsRev (n : Nat) : List Nat := natDigitsRevAux n n

/-- Decimal representation of a natural number, as produced by the JS
`String()` conversion on a non-negative integer. -/
def natToDecimal (n : Nat) : String :=
  if n = 0 then "0" else ((natDigitsRev n).reverse.map digitChar).asString

/-- The JS `String(n)` conversion on an integer-valued number. -/
def jsStringOfNum (n : Int) : String :=
  if n < 0 then "-" ++ natToDecimal n.natAbs else natToDecimal n.natAbs

/-- A non-empty all-digit character list, or `none`. -/
def parseDigits? (cs : List Char) : Option Nat :=
  match cs with
  | [] => none
  | _ => if cs.all isDigitChar then some (digitsVal cs) else none

/-- The JS `Number(s)` conversion, restricted to the integer-valued fragment
of this embedding: `some n` when `Number(s)` is the integer `n`, and `none`
when `Number(s)` is `NaN`.  Fractional, exponent, hex and `Infinity` inputs
produce non-integer or unmodelled numbers and are mapped to `none`; no code
path the claims exercise feeds such a string to `Number` as a value. -/
def jsToNumber (s : String) : Option Int :=
  match trimWsChars s.toList with
  | [] => some 0
  | c :: rest =>
    if c = '-' then (parseDigits? rest).map (fun n => -(n : Int))
    else if c = '+' then (parseDigits? rest).map (fun n => (n : Int))
    else (parseDigits? (c :: rest)).map (fun n => (n : Int))

/-- `Number(val.N)` as used by the decoders: a `NaN` result is `vnan`. -/
def jsNumberOf (s : String) : JSVal :=
  match jsToNumber s with
  | some n => .vnum n
  | none => .vnan

/-- The exponent suffix of a JS decimal numeric literal: empty, or
`e`/`E` followed by an optional sign and at least one digit. -/
def expTailOk : List Char → Bool
  | [] => true
  | c :: rest =>
    (c == 'e' || c == 'E') &&
    (match rest with
     | '+' :: ds => !ds.isEmpty && ds.all isDigitChar
     | '-' :: ds => !ds.isEmpty && ds.all isDigitChar
     | ds => !ds.isEmpty && ds.all isDigitChar)

/-- A JS unsigned decimal mantissa with optional fraction and exponent:
`digits [. digits] [exp]` or `. digits [exp]`. -/
def mantissaOk (cs : List Char) : Bool :=
  let intPart := cs.takeWhile isDigitChar
  let rest := cs.dropWhile isDigitChar
  match rest with
  | '.' :: rest2 =>
    let fracPart := rest2.takeWhile isDigitChar
    let rest3 := rest2.dropWhile isDigitChar
    (!intPart.isEmpty || !fracPart.isEmpty) && expTailOk rest3
  | _ => !intPart.isEmpty && expTailOk rest

def isHexDigitChar (c : Char) : Bool :=
  isDigitChar c || ('a' ≤ c && c ≤ 'f') || ('A' ≤ c && c ≤ 'F')

/-- A JS non-decimal numeric literal (`0x`, `0o`, `0b` forms); these admit
no sign under `Number()`. -/
def nonDecimalOk : List Char → Bool
  | '0' :: c :: ds =>
    ((c == 'x' || c == 'X') && !ds.isEmpty && ds.all isHexDigitChar) ||
    ((c == 'o' || c == 'O') && !ds.isEmpty && ds.all (fun d => '0' ≤ d && d ≤ '7')) ||
    ((c == 'b' || c == 'B') && !ds.isEmpty && ds.all (fun d => d == '0' || d == '1'))
  | _ => false

def decimalOrInfinity (cs : List Char) : Bool :=
  cs == "Infinity".toList || mantissaOk cs

/-- The test `!isNaN(Number(s))` used by the handler to decide whether a
filename-derived assignment id is numeric. -/
def jsIsNumeric (s : String) : Bool :=
  match trimWsChars s.toList with
  | [] => true
  | c :: rest =>
    if c = '-' then decimalOrInfinity rest
    else if c = '+' then decimalOrInfinity rest
    else decimalOrInfinity (c :: rest) || nonDecimalOk (c :: rest)

/-! ### A JSON parser (the JS `JSON.parse`)

Restricted to the integer-numeral fragment: a non-integer numeral makes the
parse fail rather than produce a non-integer number (documented model
limitation; every claim that feeds a string through `JSON.parse` supplies
integer numerals). -/

def openBraceChar : Char := Char.ofNat 123

def closeBraceChar : Char := Char.ofNat 125

def jsonWsChar (c : Char) : Bool :=
  c == ' ' || c == '\x09' || c == '\x0A' || c == '\x0D'

def skipJsonWs (cs : List Char) : List Char := cs.dropWhile jsonWsChar

def hexDigitVal (c : Char) : Option Nat :=
  if isDigitChar c then some (c.toNat - 48)
  else if 'a' ≤ c && c ≤ 'f' then some (c.toNat - 97 + 10)
  else if 'A' ≤ c && c ≤ 'F' then some (c.toNat - 65 + 10)
  else none

/-- Parse the body of a JSON string after the opening quote; returns the
decoded characters and the remainder after the closing quote.  Fueled
(each step consumes at least one character, so `fuel ≥ length` suffices). -/
def parseStringBody : Nat → List Char → Option (List Char × List Char)
  | 0, _ => none
  | _, [] => none
  | fuel + 1, c :: rest =>
    if c = '"' then some ([], rest)
    else if c = '\\' then
      match rest with
      | [] => none
      | e :: rest2 =>
        if e = '"' then (parseStringBody fuel rest2).map (fun p => ('"' :: p.1, p.2))
        else if e = '\\' then (parseStringBody fuel rest2).map (fun p => ('\\' :: p.1, p.2))
        else if e = '/' then (parseStringBody fuel rest2).map (fun p => ('/' :: p.1, p.2))
        else if e = 'n' then (parseStringBody fuel rest2).map (fun p => ('\x0A' :: p.1, p.2))
        else if e = 't' then (parseStringBody fuel rest2).map (fun p => ('\x09' :: p.1, p.2))
        else if e = 'r' then (parseStringBody fuel rest2).map (fun p => ('\x0D' :: p.1, p.2))
        else if e = 'b' then (parseStringBody fuel rest2).map (fun p => ('\x08' :: p.1, p.2))
        else if e = 'f' then (parseStringBody fuel rest2).map (fun p => ('\x0C' :: p.1, p.2))
        else if e = 'u' then
          match rest2 with
          | h1 :: h2 :: h3 :: h4 :: rest3 =>
            match hexDigitVal h1, hexDigitVal h2, hexDigitVal h3, hexDigitVal h4 with
            | some a, some b_, some c_, some d =>
              let code := ((a * 16 + b_) * 16 + c_) * 16 + d
              if h : code.isValidChar then
                (parseStringBody fuel rest3).map (fun p => (Char.ofNatAux code h :: p.1, p.2))
              else none
            | _, _, _, _ => none
          | _ => none
        else none
    else parseStringBody fuel rest |>.map (fun p => (c :: p.1, p.2))

mutual

/-- Fuel-indexed JSON value parser. -/
def parseJsonVal : Nat → List Char → Option (JSVal × List Char)
  | 0, _ => none
  | fuel + 1, cs =>
    match skipJsonWs cs with
    | [] => none
    | c :: rest =>
      if c = openBraceChar then
        match skipJsonWs rest with
        | [] => none
        | c2 :: rest2 =>
          if c2 = closeBraceChar then some (mkObj [], rest2)
          else (parseJsonFields fuel (c2 :: rest2)).map (fun p => (mkObj p.1, p.2))
      else if c = '[' then
        match skipJsonWs rest with
        | [] => none
        | c2 :: rest2 =>
          if c2 = ']' then some (mkArr [], rest2)
          else (parseJsonElems fuel (c2 :: rest2)).map (fun p => (mkArr p.1, p.2))
      else if c = '"' then
        (parseStringBody (rest.length + 1) rest).map (fun p => (.vstr p.1.asString, p.2))
      else if c = '-' then
        match parseDigits? (rest.takeWhile isDigitChar) with
        | some n => some (.vnum (-(n : Int)), rest.dropWhile isDigitChar)
        | none => none
      else if isDigitChar c then
        some (.vnum (digitsVal ((c :: rest).takeWhile isDigitChar)),
              (c :: rest).dropWhile isDigitChar)
      else
        match c :: rest with
        | 't' :: 'r' :: 'u' :: 'e' :: r => some (.vbool true, r)
        | 'f' :: 'a' :: 'l' :: 's' :: 'e' :: r => some (.vbool false, r)
        | 'n' :: 'u' :: 'l' :: 'l' :: r => some (.vnull, r)
        | _ => none

/-- Parse `value (, value)* ]` for a non-empty JSON array. -/
def parseJsonElems : Nat → List Char → Option (List JSVal × List Char)
  | 0, _ => none
  | fuel + 1, cs =>
    match parseJsonVal fuel cs with
    | none => none
    | some (v, rest) =>
      match skipJsonWs rest with
      | ',' :: rest2 => (parseJsonElems fuel rest2).map (fun p => (v :: p.1, p.2))
      | ']' :: rest2 => some ([v], rest2)
      | _ => none

/-- Parse `"key": value (, "key": value)* CLOSEBRACE` for a non-empty JSON
object. -/
def parseJsonFields : Nat → List Char → Option (List (String × JSVal) × List Char)
  | 0, _ => none
  | fuel + 1, cs =>
    match skipJsonWs cs with
    | '"' :: rest =>
      match parseStringBody (rest.length + 1) rest with
      | none => none
      | some (key, rest2) =>
        match skipJsonWs rest2 with
        | ':' :: rest3 =>
          match parseJsonVal fuel rest3 with
          | none => none
          | some (v, rest4) =>
            match skipJsonWs rest4 with
            | ',' :: rest5 =>
              (parseJsonFields fuel rest5).map (fun p => ((key.asString, v) :: p.1, p.2))
            | c :: rest5 =>
              if c = closeBraceChar then some ([(key.asString, v)], rest5) else none
            | [] => none
        | _ => none
    | _ => none

end

/-- The JS `JSON.parse`: `none` models a thrown `SyntaxError`. -/
def jsonParse (s : String) : Option JSVal :=
  match parseJsonVal (s.length + 2) s.toList with
  | some (v, rest) => if skipJsonWs rest = [] then some v else none
  | none => none

/-! ### Text sanitizer (part_001 `sanitizeText` / `normalizeForOneLine`)

JS strings are UTF-16; the regex class `[^\x09\x0A\x0D\x20-\x7E\xa0-￿]`
operates on code units, so both halves of a surrogate pair fall in
`\xa0-￿` and astral characters are kept.  On Lean's scalar-value
characters this keep-set is: TAB, LF, CR, `\x20`-`\x7E`, and `\xA0` upward. -/

def keepChar (c : Char) : Bool :=
  c == '\x09' || c == '\x0A' || c == '\x0D' ||
  (' ' ≤ c && c ≤ '~') || '\xA0' ≤ c

/-- `.replace(/\u0000/g, '')`. -/
def removeNullChars (cs : List Char) : List Char :=
  cs.filter (fun c => !(c == '\x00'))

/-- A global single-character regex replacement `.replace(/a/g, b)`. -/
def mapCharTo (a b : Char) (cs : List Char) : List Char :=
  cs.map (fun c => if c = a then b else c)

/-- `sanitizeText` from the retrying batch script: remove null bytes,
form-feed to newline, CR to newline, strip characters outside the keep
class. -/
def sanitizeTextChars (cs : List Char) : List Char :=
  (mapCharTo '\x0D' '\x0A' (mapCharTo '\x0C' '\x0A' (removeNullChars cs))).filter keepChar

def sanitizeText (s : String) : String :=
  (sanitizeTextChars s.toList).asString

/-- `.replace(/\r\n/g, ' ')`: a global two-character pattern replacement,
scanning left to right over non-overlapping occurrences. -/
def replaceCRLF : List Char → List Char
  | [] => []
  | [c] => [c]
  | c1 :: c2 :: rest =>
    if c1 = '\x0D' ∧ c2 = '\x0A' then ' ' :: replaceCRLF rest
    else c1 :: replaceCRLF (c2 :: rest)

/-- The collapse step, by fuel (structural so that equations and concrete
evaluation behave); each recursive call keeps the argument's length equal
to the fuel, so the zero-fuel fallback is dead code for the wrapper below. -/
def collapseWsAux : Nat → List Char → List Char
  | 0, l => l
  | _ + 1, [] => []
  | _ + 1, [c] => [c]
  | fuel + 1, c1 :: c2 :: rest2 =>
    if isJsWs c1 && isJsWs c2 then collapseWsAux fuel (' ' :: rest2)
    else c1 :: collapseWsAux fuel (c2 :: rest2)

/-- `.replace(/\s\s+/g, ' ')`: every maximal run of two or more JS
whitespace characters becomes a single space (two adjacent whitespace
characters merge into one space, which then absorbs the rest of the run). -/
def collapseWsChars (cs : List Char) : List Char := collapseWsAux cs.length cs

/-- `normalizeForOneLine` from the retrying batch script: remove null
bytes; form-feed, CRLF, CR, LF and TAB all to spaces; collapse whitespace
runs; trim. -/
def normalizeChars (cs : List Char) : List Char :=
  trimWsChars (collapseWsChars (mapCharTo '\x09' ' ' (mapCharTo '\x0A' ' '
    (mapCharTo '\x0D' ' ' (replaceCRLF (mapCharTo '\x0C' ' ' (removeNullChars cs)))))))

def normalizeForOneLine (s : String) : String :=
  (normalizeChars s.toList).asString

/-- The sanitization pipeline the invoker applies to assignment text before
building the payload: `normalizeForOneLine(sanitizeText(text))`. -/
def sanitizePipeline (s : String) : String :=
  normalizeForOneLine (sanitizeText s)

/-! ### The result codec: two decoders and one encoder

The two batch scripts (the retrying axios variant and the SageMaker
variant) share one `convert`; the analytics script has its own `convert`
and the `toDynamoDBFormat` encoder.  The size lemmas below serve as
termination measures for the decoders, whose recursion descends through a
field lookup. -/

theorem lookupField_sizeOf : ∀ {fs : JSFields} {k : String} {v : JSVal},
    lookupField fs k = some v → sizeOf v < sizeOf fs
  | .nil, _, _, h => by simp [lookupField] at h
  | .cons k' v' rest, k, v, h => by
    unfold lookupField at h
    by_cases hk : k' = k
    · simp [hk] at h
      subst h
      simp
      omega
    · simp [hk] at h
      have := lookupField_sizeOf h
      simp
      omega

theorem jsGet_sizeOf {val : JSVal} {k : String} {v : JSVal}
    (h : jsGet val k = some v) : sizeOf v < sizeOf val := by
  cases val <;> simp [jsGet] at h
  rename_i fs
  have := lookupField_sizeOf h
  simp
  omega

/-- The JS `Number(x)` coercion on a non-string operand, as reachable from
`Number(val.N)`: numbers pass through, `null` is 0, booleans are 0/1.
Arrays and objects mostly coerce to `NaN` (the single-element-array corner
cases are not modelled; no wire datum puts an object under `N`). -/
def jsNumberCoerceVal : JSVal → JSVal
  | .vstr s => jsNumberOf s
  | .vnum n => .vnum n
  | .vnan => .vnan
  | .vbool b => .vnum (if b then 1 else 0)
  | .vnull => .vnum 0
  | _ => .vnan

namespace Batch

/-- The `for (const key in item)` loop when `item` is a string: the loop
value is a single character, for which every discriminator lookup yields
`undefined`, so the `convert` chain passes it through unchanged; that
pass-through is recorded inline here. -/
def strCharFields (i : Nat) : List Char → JSFields
  | [] => .nil
  | c :: rest => .cons (toString i) (.vstr (String.singleton c)) (strCharFields (i + 1) rest)

mutual

/-- `convert` from the two batch scripts (part_001 lines 195-210,
part2_Sagemaker.js lines 206-221): treats its argument as a map of
attribute name to typed value and unwraps one discriminator layer per
field value. -/
def convert (item : JSVal) : JSVal :=
  if truthy item = false then .vnull
  else
    match item with
    | .vobj fs => .vobj (convertFields fs)
    | .varr xs => .vobj (convertArrFields 0 xs)
    | .vstr s => .vobj (strCharFields 0 s.toList)
    | _ => .vobj .nil
termination_by sizeOf item

/-- The `for (const key in item)` loop over an object's fields. -/
def convertFields : JSFields → JSFields
  | .nil => .nil
  | .cons k v rest => .cons k (convertEntryVal v) (convertFields rest)
termination_by fs => sizeOf fs

/-- The same loop when `item` is an array: keys are index strings. -/
def convertArrFields (i : Nat) : JSList → JSFields
  | .nil => .nil
  | .cons v rest => .cons (toString i) (convertEntryVal v) (convertArrFields (i + 1) rest)
termination_by xs => sizeOf xs

/-- The body of the loop: the `val.S / val.N / val.BOOL / val.M / val.L`
discriminator chain, with pass-through for unrecognized values. -/
def convertEntryVal (val : JSVal) : JSVal :=
  match jsGet val "S" with
  | some v => v
  | none =>
    match jsGet val "N" with
    | some v => jsNumberCoerceVal v
    | none =>
      match jsGet val "BOOL" with
      | some v => v
      | none =>
        match h : jsGet val "M" with
        | some m => convert m
        | none =>
          match h2 : jsGet val "L" with
          | some (.varr xs) => .varr (convertL xs)
          | some _ => .vnull
          | none => val
termination_by sizeOf val
decreasing_by
  all_goals simp_wf
  · have := jsGet_sizeOf h
    omega
  · have := jsGet_sizeOf h2
    simp at this
    omega

/-- `val.L.map(convert)`. -/
def convertL : JSList → JSList
  | .nil => .nil
  | .cons v rest => .cons (convert v) (convertL rest)
termination_by xs => sizeOf xs

end

end Batch

namespace Analytics

mutual

/-- `convert` from the analytics script (part_002 lines 635-654): if the
item itself is a typed wrapper (`S`/`N`/`BOOL`/`M`/`L` present) it is
unwrapped at value level; otherwise the function maps itself over the own
enumerable entries.  In JS a truthy non-empty string item makes the map
branch recurse on single-character strings forever and a non-array `L`
makes `.map` throw; both are modelled as `null` and unreachable for wire
data. -/
def convert (item : JSVal) : JSVal :=
  if truthy item = false then .vnull
  else
    match jsGet item "S" with
    | some v => v
    | none =>
      match jsGet item "N" with
      | some v => jsNumberCoerceVal v
      | none =>
        match jsGet item "BOOL" with
        | some v => v
        | none =>
          match h : jsGet item "M" with
          | some m => convert m
          | none =>
            match h2 : jsGet item "L" with
            | some (.varr xs) => .varr (convertL xs)
            | some _ => .vnull
            | none =>
              match item with
              | .vobj fs => .vobj (convertFields fs)
              | .varr xs => .vobj (convertArrFields 0 xs)
              | .vstr _ => .vnull
              | _ => .vobj .nil
termination_by sizeOf item
decreasing_by
  all_goals simp_wf
  · have := jsGet_sizeOf h
    omega
  · have := jsGet_sizeOf h2
    simp at this
    omega

/-- `item.L.map(convert)`. -/
def convertL : JSList → JSList
  | .nil => .nil
  | .cons v rest => .cons (convert v) (convertL rest)
termination_by xs => sizeOf xs

/-- The `for (const key in item)` map branch over an object's fields. -/
def convertFields : JSFields → JSFields
  | .nil => .nil
  | .cons k v rest => .cons k (convert v) (convertFields rest)
termination_by fs => sizeOf fs

/-- The same map branch when `item` is an array: keys are index strings. -/
def convertArrFields (i : Nat) : JSList → JSFields
  | .nil => .nil
  | .cons v rest => .cons (toString i) (convert v) (convertArrFields (i + 1) rest)
termination_by xs => sizeOf xs

end

/-- Character entries of a string handed to the encoder: each loop value
is a single-character string, wrapped as `(S: c)`. -/
def encodeStrFields (i : Nat) : List Char → JSFields
  | [] => .nil
  | c :: rest => .cons (toString i) (.vobj (.cons "S" (.vstr (String.singleton c)) .nil)) (encodeStrFields (i + 1) rest)

mutual

/-- `toDynamoDBFormat` from the analytics script (part_002 lines 660-692):
wraps each value of a plain object with its type discriminator.  The
nested-object branches `(M: toDynamoDBFormat(val))` are written with the
recursion inlined one constructor step (`toDynamoDBFormat (.vobj fs)`
definitionally equals `.vobj (encodeFields fs)`), which the termination
checker requires. -/
def toDynamoDBFormat : JSVal → JSVal
  | .vnull => .vnull
  | .vobj fs => .vobj (encodeFields fs)
  | .varr xs => .vobj (encodeArrFields 0 xs)
  | .vstr s => .vobj (encodeStrFields 0 s.toList)
  | _ => .vobj .nil

/-- The `for (const key in obj)` loop of the encoder. -/
def encodeFields : JSFields → JSFields
  | .nil => .nil
  | .cons k v rest => .cons k (wrapVal v) (encodeFields rest)
termination_by fs => sizeOf fs

/-- The same loop when the encoder is handed an array (reachable through
the list mapper's object branch): keys are index strings. -/
def encodeArrFields (i : Nat) : JSList → JSFields
  | .nil => .nil
  | .cons v rest => .cons (toString i) (wrapVal v) (encodeArrFields (i + 1) rest)
termination_by xs => sizeOf xs

/-- The value-wrapping chain of the encoder's loop body: string / number /
boolean / array / object, with `typeof null === 'object'` sending `null`
to `(M: toDynamoDBFormat(null)) = (M: null)`. -/
def wrapVal : JSVal → JSVal
  | .vstr s => .vobj (.cons "S" (.vstr s) .nil)
  | .vnum n => .vobj (.cons "N" (.vstr (jsStringOfNum n)) .nil)
  | .vnan => .vobj (.cons "N" (.vstr "NaN") .nil)
  | .vbool b => .vobj (.cons "BOOL" (.vbool b) .nil)
  | .varr xs => .vobj (.cons "L" (.varr (wrapElems xs)) .nil)
  | .vobj fs => .vobj (.cons "M" (.vobj (encodeFields fs)) .nil)
  | .vnull => .vobj (.cons "M" .vnull .nil)
termination_by v => sizeOf v

/-- `val.map(item => ...)` for an array value. -/
def wrapElems : JSList → JSList
  | .nil => .nil
  | .cons v rest => .cons (wrapElem v) (wrapElems rest)
termination_by xs => sizeOf xs

/-- The per-element wrapping chain of the list mapper: strings, numbers
and booleans get scalar wrappers, and everything of `typeof 'object'`
(objects, arrays and `null`) becomes `(M: toDynamoDBFormat(item))`. -/
def wrapElem : JSVal → JSVal
  | .vstr s => .vobj (.cons "S" (.vstr s) .nil)
  | .vnum n => .vobj (.cons "N" (.vstr (jsStringOfNum n)) .nil)
  | .vnan => .vobj (.cons "N" (.vstr "NaN") .nil)
  | .vbool b => .vobj (.cons "BOOL" (.vbool b) .nil)
  | .vobj fs => .vobj (.cons "M" (.vobj (encodeFields fs)) .nil)
  | .varr xs => .vobj (.cons "M" (.vobj (encodeArrFields 0 xs)) .nil)
  | .vnull => .vobj (.cons "M" .vnull .nil)
termination_by v => sizeOf v

end

end Analytics

/-! ### Result validator (`validateDynamoDBStructure`, identical in both
batch scripts) -/

def requiredFields : List String :=
  ["analyticsId", "assignmentId", "gradeReceived", "aiGeneratedAnalytics",
   "plagarismAnalytics", "gradeReasoning", "remarks"]

/-- The `required.forEach` loop: a thrown `Error` is the `.error` case. -/
def checkFields (result : JSVal) : List String → Except String Bool
  | [] => .ok true
  | f :: fs =>
    if truthyOpt (jsGet result f) then checkFields result fs
    else .error ("Missing required field: " ++ f)

def validateDynamoDBStructure (result : JSVal) : Except String Bool :=
  checkFields result requiredFields

/-! ### Endpoint invoker (part_001 `invokeModelEndpoint`)

The axios transport is a function from the attempt number to an outcome: a
resolved response (status and already-JSON-parsed body) or a rejected
promise carrying an error with optional `response.status` and `code`
fields.  Under axios's default `validateStatus` a non-2xx response arrives
as a rejection with `response.status` set; the dead in-code `status >= 400`
check is still modelled.  The JS `SyntaxError`/format error messages carry
serialized-body snippets which are elided here as not load-bearing. -/

structure JsErr where
  message : String
  responseStatus : Option Nat
  code : Option String
deriving DecidableEq

inductive TransportOutcome where
  | ok : Nat → JSVal → TransportOutcome
  | err : JsErr → TransportOutcome

def syntaxErrorMsg : String := "Unexpected token in JSON"

def unknownFormatMsg : String :=
  "Unknown response format. Expected DynamoDB JSON or SageMaker array."

def httpStatusMsg (status : Nat) : String :=
  "Lambda returned HTTP " ++ toString status

/-- `const result = typeof raw === 'string' ? JSON.parse(raw) : raw`. -/
def coerceResult (raw : JSVal) : Except JsErr JSVal :=
  match raw with
  | .vstr s =>
    match jsonParse s with
    | some v => .ok v
    | none => .error ⟨syntaxErrorMsg, none, none⟩
  | v => .ok v

/-- `result.analyticsId && result.analyticsId.N !== undefined`. -/
def isCanonicalFormat (result : JSVal) : Bool :=
  match jsGet result "analyticsId" with
  | some a => truthy a && (jsGet a "N").isSome
  | none => false

/-- `Array.isArray(result) && result.length > 0 && result[0].generated_text`
(the truthy `generated_text` value, when present). -/
def legacyGenText (result : JSVal) : Option JSVal :=
  match result with
  | .varr (.cons x _) =>
    match jsGet x "generated_text" with
    | some g => if truthy g then some g else none
    | none => none
  | _ => none

/-- The response-shape reconciliation: canonical typed-attribute map passes
through, the legacy array's `generated_text` string is JSON-parsed, and
anything else is the unknown-format error.  (`JSON.parse` string-coerces a
non-string truthy `generated_text`; those corner cases are modelled as a
parse error and unreachable for the claims.) -/
def reconcileFormat (result : JSVal) : Except JsErr JSVal :=
  if isCanonicalFormat result then .ok result
  else
    match legacyGenText result with
    | some (.vstr s) =>
      match jsonParse s with
      | some v => .ok v
      | none => .error ⟨syntaxErrorMsg, none, none⟩
    | some _ => .error ⟨syntaxErrorMsg, none, none⟩
    | none => .error ⟨unknownFormatMsg, none, none⟩

/-- One attempt's try-block after the transport resolves or rejects. -/
def attemptOnce (t : TransportOutcome) : Except JsErr JSVal :=
  match t with
  | .err e => .error e
  | .ok status data =>
    if 400 ≤ status then .error ⟨httpStatusMsg status, none, none⟩
    else
      match coerceResult data with
      | .error e => .error e
      | .ok result => reconcileFormat result

def MAX_RETRIES : Nat := 3

/-- `error.response?.status === 502 || error.code === 'ECONNABORTED'`. -/
def retryable (e : JsErr) : Bool :=
  e.responseStatus == some 502 || e.code == some "ECONNABORTED"

/-- The exhaustion error: `Lambda invocation failed after 3 attempts: m`. -/
def wrapFailureMsg (e : JsErr) : String :=
  "Lambda invocation failed after " ++ toString MAX_RETRIES ++ " attempts: " ++ e.message

/-- The observable result of `invokeModelEndpoint`: the returned value or
thrown error, the number of attempts made, and the backoff delays (ms)
awaited between consecutive attempts. -/
structure InvokeResult where
  outcome : Except JsErr JSVal
  attempts : Nat
  waits : List Nat

/-- The retry loop from attempt number `attempt` up to `MAX_RETRIES`:
retry on 502/timeout with backoff `1000 * attempt`, wrap the error on the
last attempt, rethrow otherwise.  Structural on a fuel argument; a retry
happens only under `attempt < MAX_RETRIES`, so `fuel = MAX_RETRIES -
attempt` suffices and the zero-fuel branch is dead code. -/
def invokeFrom (transport : Nat → TransportOutcome) : Nat → Nat → InvokeResult
  | fuel, attempt =>
    match attemptOnce (transport attempt) with
    | .ok v => ⟨.ok v, 1, []⟩
    | .error e =>
      if attempt < MAX_RETRIES ∧ retryable e = true then
        match fuel with
        | fuel' + 1 =>
          let rest := invokeFrom transport fuel' (attempt + 1)
          ⟨rest.outcome, rest.attempts + 1, (1000 * attempt) :: rest.waits⟩
        | 0 => ⟨.error e, 1, []⟩
      else if attempt = MAX_RETRIES then
        ⟨.error ⟨wrapFailureMsg e, none, none⟩, 1, []⟩
      else
        ⟨.error e, 1, []⟩

def invokeModelEndpoint (transport : Nat → TransportOutcome) : InvokeResult :=
  invokeFrom transport (MAX_RETRIES - 1) 1

/-! ### Batch orchestrator (the per-file loop of `handler`)

The collaborators (local file read, model invocation, DynamoDB put) are
explicit.  `invoke` errors carry the thrown error's `.message`.  The two
script variants differ in whether `validateDynamoDBStructure` runs (the
SageMaker variant calls it; the axios variant comments it out) and in the
analytics id passed; both are parameters. -/

structure Outcome where
  assignmentId : String
  status : String
  error : Option String
deriving DecidableEq

structure BatchDeps where
  read : String → Except String String
  invoke : String → String → Int → Except String JSVal
  save : JSVal → Except String Unit

/-- `path.extname(filename)` for a bare filename (no directory
separators): the suffix from the last dot, or `""` when there is no dot or
the only dot is the leading character. -/
def extname (f : String) : String :=
  let rev := f.toList.reverse
  let pre := rev.takeWhile (fun c => !(c = '.'))
  if pre.length = rev.length then ""
  else if pre.length + 1 = rev.length then ""
  else "." ++ pre.reverse.asString

/-- Split around the first occurrence of `pat`: `(before, after)`. -/
def splitFirstAux (pat : List Char) : List Char → Option (List Char × List Char)
  | [] => if pat = [] then some ([], []) else none
  | c :: rest =>
    if pat.isPrefixOf (c :: rest) then some ([], (c :: rest).drop pat.length)
    else
      match splitFirstAux pat rest with
      | some (pre, post) => some (c :: pre, post)
      | none => none

/-- JS `String.prototype.replace` with a string pattern replaces only the
first occurrence; with the empty pattern and empty replacement it returns
the string unchanged. -/
def replaceFirst (s pat : String) : String :=
  if pat = "" then s
  else
    match splitFirstAux pat.toList s.toList with
    | some (pre, post) => (pre ++ post).asString
    | none => s

/-- `readAssignmentFromLocal`: reads the file and derives the assignment id
by stripping the extension (`path.join('./converted', f)` normalizes to
`converted/f` in the error message). -/
def readAssignmentFromLocal (deps : BatchDeps) (filename : String) :
    Except String (String × String) :=
  match deps.read filename with
  | .ok text => .ok (text, replaceFirst filename (extname filename))
  | .error m => .error ("Failed to read file converted/" ++ filename ++ ": " ++ m)

/-- `saveAnalysisToDynamoDB`: the put, then the log line that reads
`result.assignmentId.N` and therefore throws a `TypeError` after a
successful put when `assignmentId` is absent or `null`. -/
def saveAnalysisToDynamoDB (deps : BatchDeps) (result : JSVal) : Except String Unit :=
  match deps.save result with
  | .error m => .error m
  | .ok _ =>
    match jsGet result "assignmentId" with
    | some .vnull => .error "Cannot read properties of null (reading 'N')"
    | some _ => .ok ()
    | none => .error "Cannot read properties of undefined (reading 'N')"

/-- One iteration of the `for (const file of txtFiles)` loop: `none` when
the `continue` for a non-numeric id fires, otherwise exactly one outcome.
`vflag` selects the variant that calls `validateDynamoDBStructure`; `aid`
is the analytics id argument. -/
def processFile (deps : BatchDeps) (vflag : Bool) (aid : Int) (file : String) :
    Option Outcome :=
  match readAssignmentFromLocal deps file with
  | .error msg => some ⟨replaceFirst file ".txt", "FAILED", some msg⟩
  | .ok (text, assignmentId) =>
    if jsIsNumeric assignmentId = false then none
    else
      match deps.invoke text assignmentId aid with
      | .error msg => some ⟨replaceFirst file ".txt", "FAILED", some msg⟩
      | .ok modelResult =>
        match (if vflag then validateDynamoDBStructure modelResult else .ok true) with
        | .error msg => some ⟨replaceFirst file ".txt", "FAILED", some msg⟩
        | .ok _ =>
          match saveAnalysisToDynamoDB deps modelResult with
          | .ok _ => some ⟨assignmentId, "SUCCESS", none⟩
          | .error msg => some ⟨assignmentId, "FAILED", some msg⟩

/-- The whole loop: outcomes are pushed in file order. -/
def handlerLoop (deps : BatchDeps) (vflag : Bool) (aid : Int) : List String → List Outcome
  | [] => []
  | f :: fs =>
    match processFile deps vflag aid f with
    | some o => o :: handlerLoop deps vflag aid fs
    | none => handlerLoop deps vflag aid fs

/-! ### Predicates delimiting the domains of the algebraic claims -/

/-- The five type-discriminator attribute names. -/
def isDiscName (k : String) : Bool :=
  k == "S" || k == "N" || k == "BOOL" || k == "M" || k == "L"

/-- An attribute map none of whose keys is a discriminator name. -/
def fieldsAvoidDisc : JSFields → Bool
  | .nil => true
  | .cons k _ rest => !(isDiscName k) && fieldsAvoidDisc rest

mutual

/-- Plain values for the codec round trip: strings, integer numbers,
booleans, lists whose elements are scalars or objects, and objects whose
keys avoid the discriminator names. -/
def plainVal : JSVal → Bool
  | .vstr _ => true
  | .vnum _ => true
  | .vbool _ => true
  | .varr xs => plainElems xs
  | .vobj fs => plainFields fs
  | _ => false

def plainElems : JSList → Bool
  | .nil => true
  | .cons v rest => plainElem v && plainElems rest

/-- List elements: scalars or objects (a list directly inside a list is
exactly the shape the counterexample exhibits). -/
def plainElem : JSVal → Bool
  | .vstr _ => true
  | .vnum _ => true
  | .vbool _ => true
  | .vobj fs => plainFields fs
  | _ => false

def plainFields : JSFields → Bool
  | .nil => true
  | .cons k v rest => !(isDiscName k) && plainVal v && plainFields rest

end

mutual

/-- Wire attribute maps on which the two decoders are compared: attribute
names avoid the discriminator names and the values are list-free typed
wrappers. -/
def listFreeMap : JSFields → Bool
  | .nil => true
  | .cons k v rest => !(isDiscName k) && listFreeWrapper v && listFreeMap rest

def listFreeWrapper : JSVal → Bool
  | .vobj (.cons "S" (.vstr _) .nil) => true
  | .vobj (.cons "N" (.vstr _) .nil) => true
  | .vobj (.cons "BOOL" (.vbool _) .nil) => true
  | .vobj (.cons "M" (.vobj m) .nil) => listFreeMap m
  | _ => false

end

/-! ### Concrete fixtures used by witnesses and counterexamples -/

/-- A transport that fails with HTTP 502 on every attempt. -/
def transport502 : Nat → TransportOutcome :=
  fun _ => .err ⟨"Request failed with status code 502", some 502, none⟩

/-- A transport that fails with HTTP 404 on the first (and every) attempt. -/
def transport404 : Nat → TransportOutcome :=
  fun _ => .err ⟨"Request failed with status code 404", some 404, some "ERR_BAD_REQUEST"⟩

/-- The canonical typed-attribute body of the legacy-format scenario. -/
def canonicalFixture : JSVal :=
  mkObj [("analyticsId", mkObj [("N", .vstr "1")]),
         ("assignmentId", mkObj [("N", .vstr "7")]),
         ("gradeReceived", mkObj [("N", .vstr "95")])]

/-- Its JSON serialization, fed through `generated_text`. -/
def legacyFixtureStr : String :=
  "\x7b\"analyticsId\":\x7b\"N\":\"1\"\x7d,\"assignmentId\":\x7b\"N\":\"7\"\x7d,\"gradeReceived\":\x7b\"N\":\"95\"\x7d\x7d"

/-- A decoded grading result whose `gradeReceived` is the number 0 and
whose other six required fields are present and truthy. -/
def gradeZeroFixture : JSVal :=
  mkObj [("analyticsId", .vnum 1), ("assignmentId", .vnum 7),
         ("gradeReceived", .vnum 0),
         ("aiGeneratedAnalytics", mkObj [("isAIUsed", .vbool true)]),
         ("plagarismAnalytics", mkObj [("isPlagarised", .vbool false)]),
         ("gradeReasoning", .vstr "ok"), ("remarks", .vstr "ok")]

/-- A result in which `assignmentId` and `gradeReasoning` are both
missing. -/
def twoMissingFixture : JSVal :=
  mkObj [("analyticsId", .vnum 1), ("gradeReceived", .vnum 88),
         ("aiGeneratedAnalytics", mkObj [("isAIUsed", .vbool true)]),
         ("plagarismAnalytics", mkObj [("isPlagarised", .vbool false)]),
         ("remarks", .vstr "ok")]

/-- A result with all seven required fields present and truthy. -/
def allPresentFixture : JSVal :=
  mkObj [("analyticsId", .vnum 1), ("assignmentId", .vnum 7),
         ("gradeReceived", .vnum 95),
         ("aiGeneratedAnalytics", mkObj [("isAIUsed", .vbool true)]),
         ("plagarismAnalytics", mkObj [("isPlagarised", .vbool false)]),
         ("gradeReasoning", .vstr "fine"), ("remarks", .vstr "fine")]

/-- A plain object containing a list directly inside a list. -/
def nestedListFixture : JSVal :=
  mkObj [("a", mkArr [mkArr [.vnum 1]])]

/-- The fields of a plain object exercising every admissible shape of the
round trip. -/
def plainFixtureFields : JSFields :=
  JSFields.ofList
    [("a", .vstr "x"), ("b", .vnum 42), ("c", .vbool false),
     ("d", mkArr [.vnum 1, .vstr "y", mkObj [("e", .vnum (-3))]]),
     ("f", mkObj [("g", .vstr "")])]

/-- A wire map containing a list of typed scalar wrappers, on which the
two decoders disagree. -/
def wireListFixture : JSVal :=
  mkObj [("xs", mkObj [("L", mkArr [mkObj [("S", .vstr "10")]])])]

/-- A list-free wire map on which the two decoders agree. -/
def wireMapFixture : JSFields :=
  JSFields.ofList
    [("analyticsId", mkObj [("N", .vstr "1")]),
     ("gradeReasoning", mkObj [("S", .vstr "fine")]),
     ("aiGeneratedAnalytics", mkObj [("M", mkObj [("isAIUsed", mkObj [("BOOL", .vbool true)])])])]

/-- Batch collaborators for the five-document scenario: every file reads,
invocation fails exactly for assignment id `3`, persistence succeeds. -/
def scenarioDeps : BatchDeps where
  read := fun f => .ok ("text of " ++ f)
  invoke := fun _ id _ =>
    if id = "3" then .error "Lambda invocation failed after 3 attempts: Request failed with status code 502"
    else .ok (mkObj [("analyticsId", mkObj [("N", .vstr "12")]),
                     ("assignmentId", mkObj [("N", .vstr id)]),
                     ("gradeReceived", mkObj [("N", .vstr "95")]),
                     ("aiGeneratedAnalytics", mkObj [("M", mkObj [("isAIUsed", mkObj [("BOOL", .vbool true)])])]),
                     ("plagarismAnalytics", mkObj [("M", mkObj [("isPlagarised", mkObj [("BOOL", .vbool false)])])]),
                     ("gradeReasoning", mkObj [("S", .vstr "fine")]),
                     ("remarks", mkObj [("S", .vstr "fine")])])
  save := fun _ => .ok ()

/-- Batch collaborators whose file read fails for `abc.txt`. -/
def readFailDeps : BatchDeps where
  read := fun f => if f = "abc.txt" then .error "ENOENT" else .ok "hello world"
  invoke := fun _ id _ => .ok (mkObj [("assignmentId", mkObj [("N", .vstr id)])])
  save := fun _ => .ok ()

/-- Whether a character list starts with JS whitespace. -/
def headWs : List Char → Bool
  | [] => false
  | c :: _ => isJsWs c

/-- No two adjacent characters are both JS whitespace (the state in which
the collapse step of the sanitizer is the identity). -/
def noAdjWs (l : List Char) : Prop :=
  List.Chain' (fun a b => ¬(isJsWs a = true ∧ isJsWs b = true)) l

/-! ## Theorems -/

/-! ### Decimal printing and parsing round trip -/

theorem digitsValLE_natDigitsRevAux :
    ∀ fuel n, n ≤ fuel → digitsValLE (natDigitsRevAux fuel n) = n
  | 0, n, h => by
    interval_cases n
    simp [natDigitsRevAux, digitsValLE]
  | fuel + 1, n, h => by
    match n with
    | 0 => simp [natDigitsRevAux, digitsValLE]
    | m + 1 =>
      have hrec : (m + 1) / 10 ≤ fuel := by omega
      simp [natDigitsRevAux, digitsValLE, digitsValLE_natDigitsRevAux fuel _ hrec]
      omega

theorem natDigitsRevAux_lt10 :
    ∀ fuel n d, d ∈ natDigitsRevAux fuel n → d < 10
  | 0, _, _, h => by simp [natDigitsRevAux] at h
  | fuel + 1, n, d, h => by
    match n with
    | 0 => simp [natDigitsRevAux] at h
    | m + 1 =>
      simp [natDigitsRevAux] at h
      rcases h with h | h
      · omega
      · exact natDigitsRevAux_lt10 fuel _ d h

theorem natDigitsRevAux_ne_nil (fuel n : Nat) (h1 : 0 < n) (h2 : n ≤ fuel) :
    natDigitsRevAux fuel n ≠ [] := by
  match fuel, n with
  | 0, _ => omega
  | _ + 1, 0 => omega
  | _ + 1, _ + 1 => simp [natDigitsRevAux]

theorem digitVal_digitChar {d : Nat} (h : d < 10) : digitVal (digitChar d) = d := by
  interval_cases d <;> rfl

theorem isDigitChar_digitChar {d : Nat} (h : d < 10) : isDigitChar (digitChar d) = true := by
  interval_cases d <;> rfl

theorem isJsWs_digitChar {d : Nat} (h : d < 10) : isJsWs (digitChar d) = false := by
  interval_cases d <;> rfl

theorem digitChar_ne_dash {d : Nat} (h : d < 10) : digitChar d ≠ '-' := by
  interval_cases d <;> decide

theorem digitChar_ne_plus {d : Nat} (h : d < 10) : digitChar d ≠ '+' := by
  interval_cases d <;> decide

theorem digitsVal_append (xs : List Char) (c : Char) :
    digitsVal (xs ++ [c]) = 10 * digitsVal xs + digitVal c := by
  simp [digitsVal, List.foldl_append]

theorem digitsVal_reverse_LE :
    ∀ ds : List Nat, (∀ d ∈ ds, d < 10) → digitsVal ((ds.reverse).map digitChar) = digitsValLE ds
  | [], _ => by simp [digitsVal, digitsValLE]
  | d :: tl, h => by
    have htl : ∀ x ∈ tl, x < 10 := fun x hx => h x (by simp [hx])
    have hd : d < 10 := h d (by simp)
    simp only [List.reverse_cons, List.map_append, List.map_cons, List.map_nil]
    rw [digitsVal_append, digitsVal_reverse_LE tl htl, digitVal_digitChar hd]
    simp [digitsValLE]
    omega

theorem dropWhile_all_neg {p : Char → Bool} :
    ∀ l : List Char, (∀ c ∈ l, p c = false) → l.dropWhile p = l
  | [], _ => rfl
  | c :: rest, h => by
    have := h c (by simp)
    simp [List.dropWhile, this]

theorem trimWs_id (cs : List Char) (h : ∀ c ∈ cs, isJsWs c = false) :
    trimWsChars cs = cs := by
  unfold trimWsChars
  rw [dropWhile_all_neg cs h]
  rw [dropWhile_all_neg cs.reverse (fun c hc => h c (by simpa using hc))]
  simp

theorem parseDigits?_of_digits (ds : List Nat) (h10 : ∀ d ∈ ds, d < 10) (hne : ds ≠ []) :
    parseDigits? ((ds.reverse).map digitChar) = some (digitsValLE ds) := by
  have hne' : (ds.reverse).map digitChar ≠ [] := by
    simp [hne]
  have hall : ∀ c ∈ (ds.reverse).map digitChar, isDigitChar c = true := by
    intro c hc
    simp at hc
    obtain ⟨d, hd, rfl⟩ := hc
    exact isDigitChar_digitChar (h10 d hd)
  unfold parseDigits?
  match hm : (ds.reverse).map digitChar with
  | [] => exact absurd hm hne'
  | c :: rest =>
    rw [← hm]
    have : ((ds.reverse).map digitChar).all isDigitChar = true := by
      rw [List.all_eq_true]
      exact hall
    rw [hm] at this ⊢
    simp only [this, if_true]
    rw [← hm, digitsVal_reverse_LE ds h10]

theorem natToDecimal_digits (n : Nat) (h : n ≠ 0) :
    natToDecimal n = ((natDigitsRev n).reverse.map digitChar).asString := by
  simp [natToDecimal, h]

theorem toList_asString (l : List Char) : (l.asString).toList = l := rfl

theorem digitsValLE_natDigitsRev (m : Nat) : digitsValLE (natDigitsRev m) = m := by
  unfold natDigitsRev
  exact digitsValLE_natDigitsRevAux m m le_rfl

theorem jsToNumber_natToDecimal (m : Nat) : jsToNumber (natToDecimal m) = some (m : Int) := by
  by_cases hm : m = 0
  · subst hm
    rfl
  · have h10 : ∀ d ∈ natDigitsRev m, d < 10 := fun d hd => natDigitsRevAux_lt10 m m d hd
    have hne : natDigitsRev m ≠ [] := natDigitsRevAux_ne_nil m m (Nat.pos_of_ne_zero hm) le_rfl
    have hnods : ∀ c ∈ (natDigitsRev m).reverse.map digitChar, isJsWs c = false := by
      intro c hc
      simp at hc
      obtain ⟨d, hd, rfl⟩ := hc
      exact isJsWs_digitChar (h10 d hd)
    rw [natToDecimal_digits m hm]
    unfold jsToNumber
    rw [toList_asString, trimWs_id _ hnods]
    rcases hcs : (natDigitsRev m).reverse.map digitChar with _ | ⟨c, rest⟩
    · simp at hcs
      exact absurd hcs hne
    · have hcd : ∃ d, d < 10 ∧ digitChar d = c := by
        have : c ∈ (natDigitsRev m).reverse.map digitChar := by
          rw [hcs]
          simp
        simp at this
        obtain ⟨d, hd, hdc⟩ := this
        exact ⟨d, h10 d hd, hdc⟩
      obtain ⟨d, hd10, rfl⟩ := hcd
      simp only [digitChar_ne_dash hd10, digitChar_ne_plus hd10, if_false]
      rw [← hcs, parseDigits?_of_digits _ h10 hne, digitsValLE_natDigitsRev m]
      rfl

theorem jsToNumber_jsStringOfNum (n : Int) : jsToNumber (jsStringOfNum n) = some n := by
  unfold jsStringOfNum
  by_cases hn : n < 0
  · simp only [hn, if_true]
    have hm : n.natAbs ≠ 0 := by omega
    have h10 : ∀ d ∈ natDigitsRev n.natAbs, d < 10 :=
      fun d hd => natDigitsRevAux_lt10 _ _ d hd
    have hne : natDigitsRev n.natAbs ≠ [] :=
      natDigitsRevAux_ne_nil _ _ (Nat.pos_of_ne_zero hm) le_rfl
    have hlist : ("-" ++ natToDecimal n.natAbs).toList
        = '-' :: (natDigitsRev n.natAbs).reverse.map digitChar := by
      rw [natToDecimal_digits _ hm]
      show ("-" ++ ((natDigitsRev n.natAbs).reverse.map digitChar).asString).data = _
      rw [String.data_append]
      rfl
    have hnods : ∀ c ∈ '-' :: (natDigitsRev n.natAbs).reverse.map digitChar, isJsWs c = false := by
      intro c hc
      simp at hc
      rcases hc with rfl | ⟨d, hd, rfl⟩
      · rfl
      · exact isJsWs_digitChar (h10 d hd)
    unfold jsToNumber
    rw [show ("-" ++ natToDecimal n.natAbs).toList = ("-" ++ natToDecimal n.natAbs).toList from rfl,
        hlist, trimWs_id _ hnods]
    simp only [if_pos rfl]
    rw [parseDigits?_of_digits _ h10 hne, digitsValLE_natDigitsRev _]
    show some (-(n.natAbs : Int)) = some n
    congr 1
    omega
  · simp only [hn, if_false]
    rw [jsToNumber_natToDecimal]
    congr 1
    omega

/-! ### Validator lemmas and claims C4, C5 -/

theorem checkFields_ok_iff (r : JSVal) (fs : List String) :
    checkFields r fs = .ok true ↔ ∀ f ∈ fs, truthyOpt (jsGet r f) = true := by
  induction fs with
  | nil => simp [checkFields]
  | cons f fs ih =>
    unfold checkFields
    by_cases h : truthyOpt (jsGet r f) = true
    · simp [h, ih]
    · simp [h]

theorem checkFields_error_find (r : JSVal) (fs : List String) (f : String)
    (h : fs.find? (fun g => !truthyOpt (jsGet r g)) = some f) :
    checkFields r fs = .error ("Missing required field: " ++ f) := by
  induction fs with
  | nil => simp at h
  | cons g fs ih =>
    by_cases hg : truthyOpt (jsGet r g) = true
    · rw [List.find?_cons_of_neg _ (by simp [hg])] at h
      unfold checkFields
      rw [if_pos hg]
      exact ih h
    · rw [List.find?_cons_of_pos _ (by simp [hg])] at h
      injection h with h
      unfold checkFields
      rw [if_neg hg, h]

theorem checkFields_error_of_missing (r : JSVal) (fs : List String) (f : String)
    (hf : f ∈ fs) (hmiss : truthyOpt (jsGet r f) = false) :
    ∃ g, checkFields r fs = .error ("Missing required field: " ++ g) := by
  induction fs with
  | nil => simp at hf
  | cons g fs ih =>
    unfold checkFields
    by_cases hg : truthyOpt (jsGet r g) = true
    · rw [if_pos hg]
      rcases List.mem_cons.mp hf with rfl | hf'
      · rw [hmiss] at hg
        cases hg
      · exact ih hf'
    · rw [if_neg hg]
      exact ⟨g, rfl⟩

/-- C4: a result whose `gradeReceived` is exactly 0 is always rejected; with
the two earlier fields present the reported error is precisely the
missing-`gradeReceived` one (zero is indistinguishable from missing under
the truthiness check); and only results with all seven top-level fields
present and truthy are accepted. -/
theorem validator_rejects_zero_grade (r : JSVal) :
    (jsGet r "gradeReceived" = some (.vnum 0) →
      ∃ f, validateDynamoDBStructure r = .error ("Missing required field: " ++ f)) ∧
    (truthyOpt (jsGet r "analyticsId") = true →
      truthyOpt (jsGet r "assignmentId") = true →
      jsGet r "gradeReceived" = some (.vnum 0) →
      validateDynamoDBStructure r = .error "Missing required field: gradeReceived") ∧
    (validateDynamoDBStructure r = .ok true ↔
      ∀ f ∈ requiredFields, truthyOpt (jsGet r f) = true) := by
  refine ⟨fun h => ?_, fun h1 h2 h3 => ?_, checkFields_ok_iff r requiredFields⟩
  · refine checkFields_error_of_missing r requiredFields "gradeReceived" (by decide) ?_
    rw [h]
    rfl
  · unfold validateDynamoDBStructure requiredFields checkFields
    rw [if_pos h1]
    unfold checkFields
    rw [if_pos h2]
    unfold checkFields
    rw [h3]
    rfl

/-- C4 witness: the concrete zero-grade result is rejected with the
missing-`gradeReceived` error. -/
theorem validator_rejects_zero_grade_witness :
    jsGet gradeZeroFixture "gradeReceived" = some (.vnum 0) ∧
    validateDynamoDBStructure gradeZeroFixture = .error "Missing required field: gradeReceived" :=
  ⟨rfl, (validator_rejects_zero_grade gradeZeroFixture).2.1 rfl rfl rfl⟩

/-- C5: with two or more required fields missing, the validator reports
exactly the first missing field in the fixed enumeration order
analyticsId, assignmentId, gradeReceived, aiGeneratedAnalytics,
plagarismAnalytics, gradeReasoning, remarks; and it returns true when all
seven are present and truthy. -/
theorem validator_first_missing_field (r : JSVal) :
    (∀ f, 2 ≤ (requiredFields.filter (fun g => !truthyOpt (jsGet r g))).length →
      requiredFields.find? (fun g => !truthyOpt (jsGet r g)) = some f →
      validateDynamoDBStructure r = .error ("Missing required field: " ++ f)) ∧
    ((∀ f ∈ requiredFields, truthyOpt (jsGet r f) = true) →
      validateDynamoDBStructure r = .ok true) :=
  ⟨fun f _ hfind => checkFields_error_find r requiredFields f hfind,
   fun h => (checkFields_ok_iff r requiredFields).mpr h⟩

/-- C5 witness: a result missing both `assignmentId` and `gradeReasoning`
is reported for `assignmentId` only (the first in order), and the
all-present result is accepted. -/
theorem validator_first_missing_field_witness :
    (2 ≤ (requiredFields.filter (fun g => !truthyOpt (jsGet twoMissingFixture g))).length ∧
     requiredFields.find? (fun g => !truthyOpt (jsGet twoMissingFixture g)) = some "assignmentId" ∧
     validateDynamoDBStructure twoMissingFixture = .error "Missing required field: assignmentId") ∧
    validateDynamoDBStructure allPresentFixture = .ok true :=
  ⟨⟨by decide, rfl,
    (validator_first_missing_field twoMissingFixture).1 "assignmentId" (by decide) rfl⟩,
   (validator_first_missing_field allPresentFixture).2 (by decide)⟩

/-! ### Invoker claims C1, C2, C3 -/

/-- C1: when the transport yields HTTP 502 on every attempt, the invoker
makes exactly `MAX_RETRIES = 3` attempts, waits `attempt * 1000` ms between
consecutive attempts (1s then 2s), and fails with the error wrapping the
last underlying cause's message and the attempt count. -/
theorem invoke_all_502_exhausts_retries (transport : Nat → TransportOutcome)
    (h : ∀ i, 1 ≤ i → i ≤ MAX_RETRIES →
      ∃ e : JsErr, transport i = .err e ∧ e.responseStatus = some 502) :
    (invokeModelEndpoint transport).attempts = MAX_RETRIES ∧
    (invokeModelEndpoint transport).waits = [1000 * 1, 1000 * 2] ∧
    ∃ e : JsErr, transport MAX_RETRIES = .err e ∧
      (invokeModelEndpoint transport).outcome = .error ⟨wrapFailureMsg e, none, none⟩ := by
  obtain ⟨e1, ht1, hs1⟩ := h 1 (by decide) (by decide)
  obtain ⟨e2, ht2, hs2⟩ := h 2 (by decide) (by decide)
  obtain ⟨e3, ht3, hs3⟩ := h 3 (by decide) (by decide)
  have hr1 : retryable e1 = true := by simp [retryable, hs1]
  have hr2 : retryable e2 = true := by simp [retryable, hs2]
  have hcomp : invokeModelEndpoint transport =
      ⟨.error ⟨wrapFailureMsg e3, none, none⟩, 3, [1000 * 1, 1000 * 2]⟩ := by
    simp [invokeModelEndpoint, MAX_RETRIES, invokeFrom, attemptOnce, ht1, ht2, ht3, hr1, hr2]
  rw [hcomp]
  exact ⟨rfl, rfl, e3, ht3, rfl⟩

/-- C1 witness: the always-502 transport exhausts the three attempts. -/
theorem invoke_all_502_exhausts_retries_witness :
    (invokeModelEndpoint transport502).attempts = MAX_RETRIES ∧
    (invokeModelEndpoint transport502).waits = [1000 * 1, 1000 * 2] ∧
    ∃ e : JsErr, transport502 MAX_RETRIES = .err e ∧
      (invokeModelEndpoint transport502).outcome = .error ⟨wrapFailureMsg e, none, none⟩ :=
  invoke_all_502_exhausts_retries transport502 (fun _ _ _ => ⟨_, rfl, rfl⟩)

/-- C2: a first attempt failing with HTTP 404, with a malformed-JSON body,
or with an unrecognized-shape body is not retried: the invoker fails after
exactly one attempt with no backoff wait. -/
theorem invoke_no_retry_nonretryable (transport : Nat → TransportOutcome)
    (h : (∃ e : JsErr, transport 1 = .err e ∧ e.responseStatus = some 404 ∧
            e.code ≠ some "ECONNABORTED") ∨
         (∃ s, transport 1 = .ok 200 (.vstr s) ∧ jsonParse s = none) ∨
         (∃ v, transport 1 = .ok 200 v ∧ (∀ s, v ≠ .vstr s) ∧
            isCanonicalFormat v = false ∧ legacyGenText v = none)) :
    (invokeModelEndpoint transport).attempts = 1 ∧
    (invokeModelEndpoint transport).waits = [] ∧
    ∃ e : JsErr, (invokeModelEndpoint transport).outcome = .error e := by
  have key : ∃ e : JsErr, attemptOnce (transport 1) = .error e ∧ retryable e = false := by
    rcases h with ⟨e, ht, hs, hc⟩ | ⟨s, ht, hp⟩ | ⟨v, ht, hvs, hcf, hlg⟩
    · refine ⟨e, by simp [attemptOnce, ht], ?_⟩
      have hcb : (e.code == some "ECONNABORTED") = false := by
        rw [beq_eq_false_iff_ne]
        exact hc
      simp [retryable, hs, hcb]
    · exact ⟨⟨syntaxErrorMsg, none, none⟩, by simp [attemptOnce, ht, coerceResult, hp], rfl⟩
    · have hco : coerceResult v = .ok v := by
        cases v <;> first | (exact absurd rfl (hvs _)) | simp [coerceResult]
      refine ⟨⟨unknownFormatMsg, none, none⟩, ?_, rfl⟩
      simp [attemptOnce, ht, hco, reconcileFormat, hcf, hlg]
  obtain ⟨e, hat, hr⟩ := key
  have hcomp : invokeModelEndpoint transport = ⟨.error e, 1, []⟩ := by
    simp [invokeModelEndpoint, MAX_RETRIES, invokeFrom, hat, hr]
  rw [hcomp]
  exact ⟨rfl, rfl, e, rfl⟩

/-- C2 witness: a 404 on the first attempt fails after one attempt. -/
theorem invoke_no_retry_nonretryable_witness :
    (invokeModelEndpoint transport404).attempts = 1 ∧
    (invokeModelEndpoint transport404).waits = [] ∧
    ∃ e : JsErr, (invokeModelEndpoint transport404).outcome = .error e :=
  invoke_no_retry_nonretryable transport404
    (Or.inl ⟨⟨"Request failed with status code 404", some 404, some "ERR_BAD_REQUEST"⟩,
      rfl, rfl, by decide⟩)

/-- C3: for a canonical typed-attribute body `B`, the invoker returns from
the legacy body `[(generated_text: s)]`, where `s` JSON-parses to `B`,
exactly what it returns from `B` delivered directly. -/
theorem invoke_legacy_matches_canonical (s : String) (B : JSVal)
    (hparse : jsonParse s = some B) (hcanon : isCanonicalFormat B = true) :
    invokeModelEndpoint (fun _ => .ok 200 (mkArr [mkObj [("generated_text", .vstr s)]])) =
      invokeModelEndpoint (fun _ => .ok 200 B) := by
  have hsne : s ≠ "" := by
    intro hx
    rw [hx, show jsonParse "" = none from rfl] at hparse
    exact Option.noConfusion hparse
  have hB : ∃ fs, B = .vobj fs := by
    cases B <;> first
      | (exact ⟨_, rfl⟩)
      | (exfalso; simp [isCanonicalFormat, jsGet] at hcanon)
  obtain ⟨fs, rfl⟩ := hB
  have hleft : invokeModelEndpoint (fun _ => .ok 200 (mkArr [mkObj [("generated_text", .vstr s)]])) =
      ⟨.ok (.vobj fs), 1, []⟩ := by
    simp [invokeModelEndpoint, MAX_RETRIES, invokeFrom, attemptOnce, coerceResult, mkArr, mkObj,
          JSList.ofList, JSFields.ofList, reconcileFormat, isCanonicalFormat, jsGet, legacyGenText,
          lookupField, truthy, hsne, hparse]
  have hright : invokeModelEndpoint (fun _ => .ok 200 (.vobj fs)) = ⟨.ok (.vobj fs), 1, []⟩ := by
    simp [invokeModelEndpoint, MAX_RETRIES, invokeFrom, attemptOnce, coerceResult, reconcileFormat,
          hcanon]
  rw [hleft, hright]

/-- C3 witness: the concrete legacy fixture decodes to the canonical
fixture's result. -/
theorem invoke_legacy_matches_canonical_witness :
    jsonParse legacyFixtureStr = some canonicalFixture ∧
    invokeModelEndpoint
        (fun _ => .ok 200 (mkArr [mkObj [("generated_text", .vstr legacyFixtureStr)]])) =
      invokeModelEndpoint (fun _ => .ok 200 canonicalFixture) :=
  ⟨rfl, invoke_legacy_matches_canonical legacyFixtureStr canonicalFixture rfl rfl⟩

/-! ### Batch orchestrator lemmas and claims C7, C8 -/

theorem handlerLoop_eq_filterMap (deps : BatchDeps) (vflag : Bool) (aid : Int) :
    ∀ files, handlerLoop deps vflag aid files = files.filterMap (processFile deps vflag aid)
  | [] => rfl
  | f :: fs => by
    unfold handlerLoop
    rw [List.filterMap_cons]
    cases processFile deps vflag aid f <;>
      simp [handlerLoop_eq_filterMap deps vflag aid fs]

theorem handlerLoop_append (deps : BatchDeps) (vflag : Bool) (aid : Int)
    (pre post : List String) :
    handlerLoop deps vflag aid (pre ++ post) =
      handlerLoop deps vflag aid pre ++ handlerLoop deps vflag aid post := by
  rw [handlerLoop_eq_filterMap, handlerLoop_eq_filterMap, handlerLoop_eq_filterMap,
      List.filterMap_append]

/-- C7: each attempted document yields exactly one outcome, in input
order; a load, invoke, validate or persistence failure is converted into a
FAILED outcome carrying the error's message and the loop continues, so a
single document's failure never aborts the batch (the loop is a total
function into the outcome list). -/
theorem handler_isolates_failures (deps : BatchDeps) (vflag : Bool) (aid : Int) :
    (∀ files, handlerLoop deps vflag aid files = files.filterMap (processFile deps vflag aid)) ∧
    (∀ pre file post o, processFile deps vflag aid file = some o →
      handlerLoop deps vflag aid (pre ++ file :: post) =
        handlerLoop deps vflag aid pre ++ o :: handlerLoop deps vflag aid post) ∧
    (∀ file m, deps.read file = .error m →
      processFile deps vflag aid file = some ⟨replaceFirst file ".txt", "FAILED",
        some ("Failed to read file converted/" ++ file ++ ": " ++ m)⟩) ∧
    (∀ file text aid' m, readAssignmentFromLocal deps file = .ok (text, aid') →
      jsIsNumeric aid' = true → deps.invoke text aid' aid = .error m →
      processFile deps vflag aid file = some ⟨replaceFirst file ".txt", "FAILED", some m⟩) ∧
    (∀ file text aid' v m, readAssignmentFromLocal deps file = .ok (text, aid') →
      jsIsNumeric aid' = true → deps.invoke text aid' aid = .ok v → vflag = true →
      validateDynamoDBStructure v = .error m →
      processFile deps vflag aid file = some ⟨replaceFirst file ".txt", "FAILED", some m⟩) ∧
    (∀ file text aid' v m, readAssignmentFromLocal deps file = .ok (text, aid') →
      jsIsNumeric aid' = true → deps.invoke text aid' aid = .ok v →
      (vflag = true → validateDynamoDBStructure v = .ok true) →
      saveAnalysisToDynamoDB deps v = .error m →
      processFile deps vflag aid file = some ⟨aid', "FAILED", some m⟩) := by
  refine ⟨handlerLoop_eq_filterMap deps vflag aid, ?_, ?_, ?_, ?_, ?_⟩
  · intro pre file post o ho
    have hcons : handlerLoop deps vflag aid (file :: post) =
        o :: handlerLoop deps vflag aid post := by
      rw [handlerLoop_eq_filterMap, handlerLoop_eq_filterMap, List.filterMap_cons, ho]
    rw [handlerLoop_append, hcons]
  · intro file m hm
    simp [processFile, readAssignmentFromLocal, hm]
  · intro file text aid' m hr hn hi
    simp [processFile, hr, hn, hi]
  · intro file text aid' v m hr hn hi hv hval
    subst hv
    simp [processFile, hr, hn, hi, hval]
  · intro file text aid' v m hr hn hi hval hsave
    have hv : (if vflag then validateDynamoDBStructure v else .ok true) = .ok true := by
      cases vflag with
      | true => exact hval rfl
      | false => rfl
    simp [processFile, hr, hn, hi, hv, hsave]

/-- C7 witness: five documents where document 3's invocation fails yield
five outcomes with exactly one FAILED, in place, and the loop continues. -/
theorem handler_isolates_failures_witness :
    processFile scenarioDeps true 13 "3.txt" =
      some ⟨"3", "FAILED",
        some "Lambda invocation failed after 3 attempts: Request failed with status code 502"⟩ ∧
    handlerLoop scenarioDeps true 13 ["1.txt", "2.txt", "3.txt", "4.txt", "5.txt"] =
      handlerLoop scenarioDeps true 13 ["1.txt", "2.txt"] ++
        ⟨"3", "FAILED",
          some "Lambda invocation failed after 3 attempts: Request failed with status code 502"⟩ ::
        handlerLoop scenarioDeps true 13 ["4.txt", "5.txt"] ∧
    handlerLoop scenarioDeps true 13 ["1.txt", "2.txt", "3.txt", "4.txt", "5.txt"] =
      [⟨"1", "SUCCESS", none⟩, ⟨"2", "SUCCESS", none⟩,
       ⟨"3", "FAILED",
         some "Lambda invocation failed after 3 attempts: Request failed with status code 502"⟩,
       ⟨"4", "SUCCESS", none⟩, ⟨"5", "SUCCESS", none⟩] :=
  ⟨rfl,
   (handler_isolates_failures scenarioDeps true 13).2.1
     ["1.txt", "2.txt"] "3.txt" ["4.txt", "5.txt"] _ rfl,
   rfl⟩

/-- C8 counterexample: `abc.txt` has a non-numeric filename-derived id,
yet when its load fails the batch loop records a FAILED outcome instead of
skipping it silently, so the claim's unconditional skip is false. -/
theorem handler_nonnumeric_not_always_skipped :
    jsIsNumeric (replaceFirst "abc.txt" (extname "abc.txt")) = false ∧
    handlerLoop readFailDeps false 13 ["abc.txt"] =
      [⟨"abc", "FAILED", some "Failed to read file converted/abc.txt: ENOENT"⟩] ∧
    handlerLoop readFailDeps false 13 ["abc.txt"] ≠ [] :=
  ⟨rfl, rfl, by decide⟩

/-- C8 amended: a successfully loaded document with a non-numeric id is
skipped silently and contributes no outcome; a document such as `7.txt`
contributes exactly one outcome whose documentId is `"7"` (the filename
with its extension removed); but a document whose load fails contributes a
FAILED outcome even when its id is non-numeric. -/
theorem handler_skips_nonnumeric (deps : BatchDeps) (vflag : Bool) (aid : Int) :
    (∀ pre file post text, deps.read file = .ok text →
      jsIsNumeric (replaceFirst file (extname file)) = false →
      handlerLoop deps vflag aid (pre ++ file :: post) =
        handlerLoop deps vflag aid (pre ++ post)) ∧
    (∃ o : Outcome, processFile deps vflag aid "7.txt" = some o ∧ o.assignmentId = "7") ∧
    (∀ file m, deps.read file = .error m →
      ∃ o : Outcome, processFile deps vflag aid file = some o ∧ o.status = "FAILED") := by
  refine ⟨?_, ?_, ?_⟩
  · intro pre file post text hr hn
    have hskip : processFile deps vflag aid file = none := by
      simp [processFile, readAssignmentFromLocal, hr, hn]
    have hcons : handlerLoop deps vflag aid (file :: post) =
        handlerLoop deps vflag aid post := by
      rw [handlerLoop_eq_filterMap, handlerLoop_eq_filterMap, List.filterMap_cons, hskip]
    rw [handlerLoop_append, hcons, ← handlerLoop_append]
  · have hrep : replaceFirst "7.txt" ".txt" = "7" := rfl
    have hid : replaceFirst "7.txt" (extname "7.txt") = "7" := rfl
    have hnum : jsIsNumeric "7" = true := rfl
    cases hred : deps.read "7.txt" with
    | error m =>
      refine ⟨⟨"7", "FAILED", some ("Failed to read file converted/7.txt: " ++ m)⟩, ?_, rfl⟩
      simp [processFile, readAssignmentFromLocal, hred, hrep]
    | ok text =>
      have hra : readAssignmentFromLocal deps "7.txt" = .ok (text, "7") := by
        simp [readAssignmentFromLocal, hred, hid]
      cases hin : deps.invoke text "7" aid with
      | error m =>
        refine ⟨⟨"7", "FAILED", some m⟩, ?_, rfl⟩
        simp [processFile, hra, hnum, hin, hrep]
      | ok v =>
        cases hval : (if vflag then validateDynamoDBStructure v else .ok true) with
        | error m =>
          refine ⟨⟨"7", "FAILED", some m⟩, ?_, rfl⟩
          simp [processFile, hra, hnum, hin, hval, hrep]
        | ok b =>
          cases hsave : saveAnalysisToDynamoDB deps v with
          | error m =>
            refine ⟨⟨"7", "FAILED", some m⟩, ?_, rfl⟩
            simp [processFile, hra, hnum, hin, hval, hsave]
          | ok u =>
            refine ⟨⟨"7", "SUCCESS", none⟩, ?_, rfl⟩
            simp [processFile, hra, hnum, hin, hval, hsave]
  · intro file m hm
    refine ⟨⟨replaceFirst file ".txt", "FAILED",
      some ("Failed to read file converted/" ++ file ++ ": " ++ m)⟩, ?_, rfl⟩
    simp [processFile, readAssignmentFromLocal, hm]

/-- C8 witness: with readable documents, `abc.txt` is skipped silently and
`7.txt` yields its single outcome. -/
theorem handler_skips_nonnumeric_witness :
    scenarioDeps.read "abc.txt" = .ok "text of abc.txt" ∧
    jsIsNumeric (replaceFirst "abc.txt" (extname "abc.txt")) = false ∧
    handlerLoop scenarioDeps false 13 ["abc.txt", "7.txt"] =
      handlerLoop scenarioDeps false 13 ["7.txt"] ∧
    handlerLoop scenarioDeps false 13 ["abc.txt", "7.txt"] = [⟨"7", "SUCCESS", none⟩] :=
  ⟨rfl, rfl, by
    have h := (handler_skips_nonnumeric scenarioDeps false 13).1
      [] "abc.txt" ["7.txt"] "text of abc.txt" rfl rfl
    simpa using h, rfl⟩

/-! ### Codec lemmas shared by the decoder claims -/

theorem lookup_disc_none : ∀ (fs : JSFields) (k : String),
    fieldsAvoidDisc fs = true → isDiscName k = true → lookupField fs k = none
  | .nil, _, _, _ => rfl
  | .cons k' v rest, k, h, hk => by
    unfold fieldsAvoidDisc at h
    rw [Bool.and_eq_true] at h
    unfold lookupField
    have hne : ¬(k' = k) := by
      intro he
      rw [he] at h
      rw [hk] at h
      simp at h
    rw [if_neg hne]
    exact lookup_disc_none rest k h.2 hk

theorem listFreeMap_avoidDisc : ∀ fs, listFreeMap fs = true → fieldsAvoidDisc fs = true
  | .nil, _ => rfl
  | .cons k v rest, h => by
    unfold listFreeMap at h
    rw [Bool.and_eq_true, Bool.and_eq_true] at h
    unfold fieldsAvoidDisc
    rw [Bool.and_eq_true]
    exact ⟨h.1.1, listFreeMap_avoidDisc rest h.2⟩

theorem plainFields_avoidDisc : ∀ fs, plainFields fs = true → fieldsAvoidDisc fs = true
  | .nil, _ => rfl
  | .cons k v rest, h => by
    unfold plainFields at h
    rw [Bool.and_eq_true, Bool.and_eq_true] at h
    unfold fieldsAvoidDisc
    rw [Bool.and_eq_true]
    exact ⟨h.1.1, plainFields_avoidDisc rest h.2⟩

theorem encodeFields_avoidDisc : ∀ fs, fieldsAvoidDisc fs = true →
    fieldsAvoidDisc (Analytics.encodeFields fs) = true
  | .nil, _ => by simp [Analytics.encodeFields, fieldsAvoidDisc]
  | .cons k v rest, h => by
    unfold fieldsAvoidDisc at h
    rw [Bool.and_eq_true] at h
    simp only [Analytics.encodeFields]
    unfold fieldsAvoidDisc
    rw [Bool.and_eq_true]
    exact ⟨h.1, encodeFields_avoidDisc rest h.2⟩

/-- `Batch.convert` on an object is the plain field map. -/
theorem batch_convert_obj (fs : JSFields) :
    Batch.convert (.vobj fs) = .vobj (Batch.convertFields fs) := by
  simp [Batch.convert, truthy]

/-- `Analytics.convert` on an object with no discriminator-named key takes
the for-in map branch. -/
theorem analytics_convert_obj (fs : JSFields) (h : fieldsAvoidDisc fs = true) :
    Analytics.convert (.vobj fs) = .vobj (Analytics.convertFields fs) := by
  have hS := lookup_disc_none fs "S" h rfl
  have hN := lookup_disc_none fs "N" h rfl
  have hB := lookup_disc_none fs "BOOL" h rfl
  have hM := lookup_disc_none fs "M" h rfl
  have hL := lookup_disc_none fs "L" h rfl
  rw [Analytics.convert.eq_def, if_neg (by simp [truthy])]
  simp only [jsGet, hS, hN, hB]
  split
  · exfalso
    rename_i hm
    rw [hM] at hm
    exact Option.noConfusion hm
  · split
    · exfalso
      rename_i hl
      rw [hL] at hl
      exact Option.noConfusion hl
    · exfalso
      rename_i hl
      rw [hL] at hl
      exact Option.noConfusion hl
    · rfl

mutual

/-- The two decoders agree on a list-free typed wrapper value. -/
theorem convert_agree_wrapper (w : JSVal) (h : listFreeWrapper w = true) :
    Batch.convertEntryVal w = Analytics.convert w := by
  unfold listFreeWrapper at h
  split at h
  · simp [Batch.convertEntryVal, Analytics.convert, jsGet, lookupField, truthy]
  · simp [Batch.convertEntryVal, Analytics.convert, jsGet, lookupField, truthy]
  · simp [Batch.convertEntryVal, Analytics.convert, jsGet, lookupField, truthy]
  · rename_i m
    have hfix : Batch.convertEntryVal (.vobj (.cons "M" (.vobj m) .nil)) =
        Batch.convert (.vobj m) := by
      simp [Batch.convertEntryVal, jsGet, lookupField]
    have hfix2 : Analytics.convert (.vobj (.cons "M" (.vobj m) .nil)) =
        Analytics.convert (.vobj m) := by
      rw [Analytics.convert.eq_def]
      simp [jsGet, lookupField, truthy]
    rw [hfix, hfix2, batch_convert_obj,
        analytics_convert_obj m (listFreeMap_avoidDisc m h)]
    exact congrArg JSVal.vobj (convert_agree_fields m h)
  · exact absurd h (by simp)
termination_by sizeOf w

/-- The two per-field loops agree on a list-free attribute map. -/
theorem convert_agree_fields (fs : JSFields) (h : listFreeMap fs = true) :
    Batch.convertFields fs = Analytics.convertFields fs := by
  match fs with
  | .nil => simp [Batch.convertFields, Analytics.convertFields]
  | .cons k v rest =>
    unfold listFreeMap at h
    rw [Bool.and_eq_true, Bool.and_eq_true] at h
    simp only [Batch.convertFields, Analytics.convertFields]
    rw [convert_agree_wrapper v h.1.2, convert_agree_fields rest h.2]
termination_by sizeOf fs

end

/-- C10 counterexample: on the wire map `(xs: (L: [(S: "10")]))` the batch
decoder passes the scalar wrapper through while the analytics decoder
unwraps it, so the two decode implementations differ. -/
theorem convert_implementations_differ :
    Batch.convert wireListFixture = mkObj [("xs", mkArr [mkObj [("S", .vstr "10")]])] ∧
    Analytics.convert wireListFixture = mkObj [("xs", mkArr [.vstr "10"])] ∧
    Batch.convert wireListFixture ≠ Analytics.convert wireListFixture := by
  have hB : Batch.convert wireListFixture = mkObj [("xs", mkArr [mkObj [("S", .vstr "10")]])] := by
    simp [wireListFixture, mkObj, mkArr, JSFields.ofList, JSList.ofList, Batch.convert,
          Batch.convertFields, Batch.convertEntryVal, Batch.convertL, Batch.convertArrFields,
          jsGet, lookupField, truthy, jsNumberCoerceVal, jsNumberOf, jsToNumber, parseDigits?,
          digitsVal, digitVal, trimWsChars, isJsWs, isDigitChar]
  have hA : Analytics.convert wireListFixture = mkObj [("xs", mkArr [.vstr "10"])] := by
    simp [wireListFixture, mkObj, mkArr, JSFields.ofList, JSList.ofList, Analytics.convert,
          Analytics.convertFields, Analytics.convertArrFields, Analytics.convertL,
          jsGet, lookupField, truthy, jsNumberCoerceVal, jsNumberOf, jsToNumber, parseDigits?,
          digitsVal, digitVal, trimWsChars, isJsWs, isDigitChar]
  refine ⟨hB, hA, ?_⟩
  intro hcontra
  rw [hB, hA] at hcontra
  simp [mkObj, mkArr, JSFields.ofList, JSList.ofList] at hcontra

/-- C10 amended: the two decode implementations agree on every wire map
whose attribute names avoid the discriminator names and whose values are
list-free typed wrappers (scalar `S`/`N`/`BOOL` wrappers and nested `M`
maps); they diverge exactly on `L` lists of typed wrappers. -/
theorem convert_implementations_agree_listfree (fs : JSFields)
    (h : listFreeMap fs = true) :
    Batch.convert (.vobj fs) = Analytics.convert (.vobj fs) := by
  rw [batch_convert_obj, analytics_convert_obj fs (listFreeMap_avoidDisc fs h)]
  exact congrArg JSVal.vobj (convert_agree_fields fs h)

/-- C10 witness: the two decoders agree on the concrete list-free wire
map. -/
theorem convert_implementations_agree_listfree_witness :
    listFreeMap wireMapFixture = true ∧
    Batch.convert (.vobj wireMapFixture) = Analytics.convert (.vobj wireMapFixture) :=
  ⟨rfl, convert_implementations_agree_listfree wireMapFixture rfl⟩

/-! ### Codec round trip (claim C6) -/

mutual

/-- Decoding inverts the encoder's value-wrapping chain on plain values. -/
theorem rt_wrapVal (v : JSVal) (h : plainVal v = true) :
    Analytics.convert (Analytics.wrapVal v) = v := by
  cases v with
  | vstr s =>
    simp [Analytics.wrapVal, Analytics.convert, jsGet, lookupField, truthy]
  | vnum n =>
    simp [Analytics.wrapVal, Analytics.convert, jsGet, lookupField, truthy,
          jsNumberCoerceVal, jsNumberOf, jsToNumber_jsStringOfNum]
  | vbool b =>
    simp [Analytics.wrapVal, Analytics.convert, jsGet, lookupField, truthy]
  | vnull => simp [plainVal] at h
  | vnan => simp [plainVal] at h
  | varr xs =>
    have h' : plainElems xs = true := by
      rw [← h]
      simp [plainVal]
    have hw : Analytics.wrapVal (.varr xs) =
        .vobj (.cons "L" (.varr (Analytics.wrapElems xs)) .nil) := by
      simp [Analytics.wrapVal]
    have hc : Analytics.convert (.vobj (.cons "L" (.varr (Analytics.wrapElems xs)) .nil)) =
        .varr (Analytics.convertL (Analytics.wrapElems xs)) := by
      rw [Analytics.convert.eq_def]
      simp [jsGet, lookupField, truthy]
    rw [hw, hc, rt_elems xs h']
  | vobj fs =>
    have h' : plainFields fs = true := by
      rw [← h]
      simp [plainVal]
    have hw : Analytics.wrapVal (.vobj fs) =
        .vobj (.cons "M" (.vobj (Analytics.encodeFields fs)) .nil) := by
      simp [Analytics.wrapVal]
    have hc : Analytics.convert (.vobj (.cons "M" (.vobj (Analytics.encodeFields fs)) .nil)) =
        Analytics.convert (.vobj (Analytics.encodeFields fs)) := by
      rw [Analytics.convert.eq_def]
      simp [jsGet, lookupField, truthy]
    rw [hw, hc,
        analytics_convert_obj _ (encodeFields_avoidDisc fs (plainFields_avoidDisc fs h')),
        rt_fields fs h']
termination_by sizeOf v

/-- Decoding inverts the encoder's list-element wrapping chain. -/
theorem rt_wrapElem (v : JSVal) (h : plainElem v = true) :
    Analytics.convert (Analytics.wrapElem v) = v := by
  cases v with
  | vstr s =>
    simp [Analytics.wrapElem, Analytics.convert, jsGet, lookupField, truthy]
  | vnum n =>
    simp [Analytics.wrapElem, Analytics.convert, jsGet, lookupField, truthy,
          jsNumberCoerceVal, jsNumberOf, jsToNumber_jsStringOfNum]
  | vbool b =>
    simp [Analytics.wrapElem, Analytics.convert, jsGet, lookupField, truthy]
  | vnull => simp [plainElem] at h
  | vnan => simp [plainElem] at h
  | varr xs => simp [plainElem] at h
  | vobj fs =>
    have h' : plainFields fs = true := by
      rw [← h]
      simp [plainElem]
    have hw : Analytics.wrapElem (.vobj fs) =
        .vobj (.cons "M" (.vobj (Analytics.encodeFields fs)) .nil) := by
      simp [Analytics.wrapElem]
    have hc : Analytics.convert (.vobj (.cons "M" (.vobj (Analytics.encodeFields fs)) .nil)) =
        Analytics.convert (.vobj (Analytics.encodeFields fs)) := by
      rw [Analytics.convert.eq_def]
      simp [jsGet, lookupField, truthy]
    rw [hw, hc,
        analytics_convert_obj _ (encodeFields_avoidDisc fs (plainFields_avoidDisc fs h')),
        rt_fields fs h']
termination_by sizeOf v

/-- Decoding inverts the encoder on every list element. -/
theorem rt_elems (xs : JSList) (h : plainElems xs = true) :
    Analytics.convertL (Analytics.wrapElems xs) = xs := by
  match xs with
  | .nil => simp [Analytics.wrapElems, Analytics.convertL]
  | .cons v rest =>
    unfold plainElems at h
    rw [Bool.and_eq_true] at h
    simp only [Analytics.wrapElems, Analytics.convertL]
    rw [rt_wrapElem v h.1, rt_elems rest h.2]
termination_by sizeOf xs

/-- Decoding inverts the encoder on every object field. -/
theorem rt_fields (fs : JSFields) (h : plainFields fs = true) :
    Analytics.convertFields (Analytics.encodeFields fs) = fs := by
  match fs with
  | .nil => simp [Analytics.encodeFields, Analytics.convertFields]
  | .cons k v rest =>
    unfold plainFields at h
    rw [Bool.and_eq_true, Bool.and_eq_true] at h
    simp only [Analytics.encodeFields, Analytics.convertFields]
    rw [rt_wrapVal v h.1.2, rt_fields rest h.2]
termination_by sizeOf fs

end

/-- C6 counterexample: the plain value `(a: [[1]])` — built by nesting
objects, lists and numbers — does not survive `convert ∘ toDynamoDBFormat`:
the inner list comes back as an index-keyed object. -/
theorem codec_roundtrip_counterexample :
    Analytics.convert (Analytics.toDynamoDBFormat nestedListFixture) =
      mkObj [("a", mkArr [mkObj [("0", .vnum 1)]])] ∧
    Analytics.convert (Analytics.toDynamoDBFormat nestedListFixture) ≠ nestedListFixture := by
  have henc : Analytics.toDynamoDBFormat nestedListFixture =
      mkObj [("a", mkObj [("L", mkArr [mkObj [("M", mkObj [("0", mkObj [("N", .vstr "1")])])]])])] := by
    simp [nestedListFixture, mkObj, mkArr, JSFields.ofList, JSList.ofList,
          Analytics.toDynamoDBFormat, Analytics.encodeFields, Analytics.encodeArrFields,
          Analytics.wrapVal, Analytics.wrapElems, Analytics.wrapElem,
          jsStringOfNum, natToDecimal, natDigitsRev, natDigitsRevAux, digitChar]
    exact ⟨by decide, by decide⟩
  have hc : Analytics.convert (Analytics.toDynamoDBFormat nestedListFixture) =
      mkObj [("a", mkArr [mkObj [("0", .vnum 1)]])] := by
    rw [henc]
    simp [mkObj, mkArr, JSFields.ofList, JSList.ofList, Analytics.convert,
          Analytics.convertFields, Analytics.convertArrFields, Analytics.convertL,
          jsGet, lookupField, truthy, jsNumberCoerceVal, jsNumberOf, jsToNumber,
          parseDigits?, digitsVal, digitVal, trimWsChars, isJsWs, isDigitChar,
          List.asString, String.toList]
  refine ⟨hc, ?_⟩
  rw [hc]
  intro hcontra
  simp [nestedListFixture, mkObj, mkArr, JSFields.ofList, JSList.ofList] at hcontra

/-- C6 amended: for every plain object whose keys (at all levels) avoid
the five discriminator names, whose numbers are integer-valued, and whose
lists contain only scalars and objects (no list directly inside a list),
decoding the encoding reproduces the object exactly — in particular
integer-valued numbers round-trip exactly through their string
representation. -/
theorem codec_roundtrip_plain (fs : JSFields) (h : plainFields fs = true) :
    Analytics.convert (Analytics.toDynamoDBFormat (.vobj fs)) = .vobj fs := by
  have henc : Analytics.toDynamoDBFormat (.vobj fs) = .vobj (Analytics.encodeFields fs) := by
    simp [Analytics.toDynamoDBFormat]
  rw [henc, analytics_convert_obj _ (encodeFields_avoidDisc fs (plainFields_avoidDisc fs h)),
      rt_fields fs h]

/-- C6 witness: the concrete plain object round-trips. -/
theorem codec_roundtrip_plain_witness :
    plainFields plainFixtureFields = true ∧
    Analytics.convert (Analytics.toDynamoDBFormat (.vobj plainFixtureFields)) =
      .vobj plainFixtureFields :=
  ⟨rfl, codec_roundtrip_plain plainFixtureFields rfl⟩

/-! ### Sanitizer lemmas (claim C9) -/

theorem mapCharTo_mem {a b c : Char} {l : List Char} (h : c ∈ mapCharTo a b l) :
    c = b ∨ (c ∈ l ∧ c ≠ a) := by
  unfold mapCharTo at h
  rcases List.mem_map.mp h with ⟨x, hx, hxe⟩
  by_cases hxa : x = a
  · left
    rw [← hxe, if_pos hxa]
  · right
    rw [← hxe, if_neg hxa]
    exact ⟨hx, hxa⟩

theorem mapCharTo_id (a b : Char) : ∀ l : List Char, (∀ c ∈ l, c ≠ a) → mapCharTo a b l = l
  | [], _ => rfl
  | c :: rest, h => by
    unfold mapCharTo
    rw [List.map_cons, if_neg (h c (by simp))]
    have hr := mapCharTo_id a b rest (fun c hc => h c (by simp [hc]))
    unfold mapCharTo at hr
    rw [hr]

theorem removeNull_mem {c : Char} {l : List Char} (h : c ∈ removeNullChars l) :
    c ∈ l ∧ c ≠ '\x00' := by
  unfold removeNullChars at h
  refine ⟨List.mem_of_mem_filter h, ?_⟩
  have := List.of_mem_filter h
  simpa using this

theorem removeNull_id (l : List Char) (h : ∀ c ∈ l, c ≠ '\x00') : removeNullChars l = l := by
  unfold removeNullChars
  rw [List.filter_eq_self]
  intro c hc
  simpa using h c hc

theorem replaceCRLF_mem : ∀ (l : List Char) (c : Char), c ∈ replaceCRLF l → c = ' ' ∨ c ∈ l
  | [], c, h => by simp [replaceCRLF] at h
  | [x], c, h => by
    simp [replaceCRLF] at h
    simp [h]
  | x :: y :: rest, c, h => by
    unfold replaceCRLF at h
    by_cases hx : x = '\x0D' ∧ y = '\x0A'
    · rw [if_pos hx] at h
      rcases List.mem_cons.mp h with rfl | h'
      · exact Or.inl rfl
      · rcases replaceCRLF_mem rest c h' with h'' | h''
        · exact Or.inl h''
        · exact Or.inr (by simp [h''])
    · rw [if_neg hx] at h
      rcases List.mem_cons.mp h with rfl | h'
      · exact Or.inr (by simp)
      · rcases replaceCRLF_mem (y :: rest) c h' with h'' | h''
        · exact Or.inl h''
        · exact Or.inr (by simp [List.mem_cons.mp h''])

theorem replaceCRLF_id : ∀ l : List Char, (∀ c ∈ l, c ≠ '\x0D') → replaceCRLF l = l
  | [], _ => rfl
  | [x], _ => rfl
  | x :: y :: rest, h => by
    unfold replaceCRLF
    rw [if_neg (by
      intro hc
      exact h x (by simp) hc.1)]
    rw [replaceCRLF_id (y :: rest) (fun c hc => h c (by simp [List.mem_cons.mp hc]))]

theorem collapseAux_mem : ∀ (fuel : Nat) (l : List Char) (c : Char),
    c ∈ collapseWsAux fuel l → c = ' ' ∨ c ∈ l
  | 0, l, c, h => Or.inr (by simpa [collapseWsAux] using h)
  | _ + 1, [], c, h => by simp [collapseWsAux] at h
  | _ + 1, [x], c, h => by
    simp [collapseWsAux] at h
    simp [h]
  | fuel + 1, c1 :: c2 :: rest2, c, h => by
    unfold collapseWsAux at h
    by_cases hws : (isJsWs c1 && isJsWs c2) = true
    · rw [if_pos hws] at h
      rcases collapseAux_mem fuel (' ' :: rest2) c h with h' | h'
      · exact Or.inl h'
      · rcases List.mem_cons.mp h' with rfl | h''
        · exact Or.inl rfl
        · exact Or.inr (by simp [h''])
    · rw [if_neg hws] at h
      rcases List.mem_cons.mp h with rfl | h'
      · exact Or.inr (by simp)
      · rcases collapseAux_mem fuel (c2 :: rest2) c h' with h'' | h''
        · exact Or.inl h''
        · exact Or.inr (by simp [List.mem_cons.mp h''])

theorem collapse_mem (l : List Char) (c : Char) (h : c ∈ collapseWsChars l) :
    c = ' ' ∨ c ∈ l :=
  collapseAux_mem l.length l c h

theorem collapseAux_headWs : ∀ (fuel : Nat) (l : List Char),
    headWs (collapseWsAux fuel l) = headWs l
  | 0, l => rfl
  | _ + 1, [] => rfl
  | _ + 1, [x] => rfl
  | fuel + 1, c1 :: c2 :: rest2 => by
    unfold collapseWsAux
    by_cases hws : (isJsWs c1 && isJsWs c2) = true
    · rw [if_pos hws]
      rw [Bool.and_eq_true] at hws
      rw [collapseAux_headWs fuel (' ' :: rest2)]
      simp [headWs, hws.1]
      decide
    · rw [if_neg hws]
      simp [headWs]

theorem chain'_cons_headWs (c : Char) (l : List Char)
    (hc : isJsWs c = false ∨ headWs l = false) (hl : noAdjWs l) : noAdjWs (c :: l) := by
  unfold noAdjWs at *
  rw [List.chain'_cons']
  refine ⟨?_, hl⟩
  intro y hy
  cases l with
  | nil => simp at hy
  | cons d rest =>
    simp at hy
    subst hy
    rcases hc with hc | hc
    · intro hpair
      rw [hc] at hpair
      exact Bool.noConfusion hpair.1
    · simp only [headWs] at hc
      intro hpair
      rw [hc] at hpair
      exact Bool.noConfusion hpair.2

theorem collapseAux_chain : ∀ (fuel : Nat) (l : List Char), l.length ≤ fuel →
    noAdjWs (collapseWsAux fuel l)
  | 0, [], _ => by simp [collapseWsAux, noAdjWs]
  | 0, _ :: _, h => by simp at h
  | _ + 1, [], _ => by simp [collapseWsAux, noAdjWs]
  | _ + 1, [x], _ => by simp [collapseWsAux, noAdjWs]
  | fuel + 1, c1 :: c2 :: rest2, h => by
    have hlen : rest2.length + 1 ≤ fuel := by
      simp at h
      omega
    unfold collapseWsAux
    by_cases hws : (isJsWs c1 && isJsWs c2) = true
    · rw [if_pos hws]
      exact collapseAux_chain fuel (' ' :: rest2) (by simpa using hlen)
    · rw [if_neg hws]
      apply chain'_cons_headWs
      · by_cases h1 : isJsWs c1 = true
        · right
          rw [collapseAux_headWs]
          simp only [headWs]
          cases h2 : isJsWs c2 with
          | false => rfl
          | true =>
            exfalso
            apply hws
            rw [Bool.and_eq_true]
            exact ⟨h1, h2⟩
        · left
          exact Bool.eq_false_iff.mpr h1
      · exact collapseAux_chain fuel (c2 :: rest2) (by simpa using hlen)

theorem collapse_chain (l : List Char) : noAdjWs (collapseWsChars l) :=
  collapseAux_chain l.length l le_rfl

theorem collapseAux_id : ∀ (fuel : Nat) (l : List Char), noAdjWs l →
    collapseWsAux fuel l = l
  | 0, l, _ => rfl
  | _ + 1, [], _ => rfl
  | _ + 1, [x], _ => rfl
  | fuel + 1, c1 :: c2 :: rest2, h => by
    unfold noAdjWs at h
    rw [List.chain'_cons] at h
    unfold collapseWsAux
    rw [if_neg (by
      intro hws
      rw [Bool.and_eq_true] at hws
      exact h.1 hws)]
    rw [collapseAux_id fuel (c2 :: rest2) h.2]

theorem collapse_id (l : List Char) (h : noAdjWs l) : collapseWsChars l = l :=
  collapseAux_id l.length l h

theorem trim_eq_rdrop (l : List Char) :
    trimWsChars l = List.rdropWhile isJsWs (List.dropWhile isJsWs l) := by
  simp [trimWsChars, List.rdropWhile]

theorem trim_mem {c : Char} {l : List Char} (h : c ∈ trimWsChars l) : c ∈ l := by
  rw [trim_eq_rdrop] at h
  have h1 : c ∈ List.dropWhile isJsWs l :=
    (List.rdropWhile_prefix isJsWs _).sublist.subset h
  exact (List.dropWhile_sublist isJsWs).subset h1

theorem trim_chain {l : List Char} (h : noAdjWs l) : noAdjWs (trimWsChars l) := by
  rw [trim_eq_rdrop]
  unfold noAdjWs at *
  have h1 := h.suffix (List.dropWhile_suffix (p := isJsWs))
  exact h1.infix (List.IsPrefix.isInfix (List.rdropWhile_prefix isJsWs _))

theorem trim_rdrop_id (l : List Char) :
    List.rdropWhile isJsWs (trimWsChars l) = trimWsChars l := by
  rw [trim_eq_rdrop, List.rdropWhile_idempotent]

theorem trim_drop_id (l : List Char) :
    List.dropWhile isJsWs (trimWsChars l) = trimWsChars l := by
  cases htr : trimWsChars l with
  | nil => rfl
  | cons c rest =>
    have hcw : isJsWs c = false := by
      rw [trim_eq_rdrop] at htr
      obtain ⟨t, ht⟩ := List.rdropWhile_prefix isJsWs (List.dropWhile isJsWs l)
      rw [htr] at ht
      have hd : List.dropWhile isJsWs l = c :: (rest ++ t) := by
        rw [← ht]
        simp
      have h0 : 0 < (List.dropWhile isJsWs l).length := by
        rw [hd]
        simp
      have hnot := List.dropWhile_get_zero_not isJsWs l h0
      simp [hd] at hnot
      exact Bool.not_eq_true _ ▸ hnot
    rw [List.dropWhile_cons_of_neg (by simp [hcw])]
theorem trim_idem (l : List Char) :
    trimWsChars (trimWsChars l) = trimWsChars l := by
  conv_lhs => rw [trim_eq_rdrop]
  rw [trim_drop_id, trim_rdrop_id]

theorem sanitize_out (l : List Char) (c : Char) (h : c ∈ sanitizeTextChars l) :
    keepChar c = true ∧ c ≠ '\x00' ∧ c ≠ '\x0C' ∧ c ≠ '\x0D' := by
  unfold sanitizeTextChars at h
  have hkeep := List.of_mem_filter h
  have hm3 := List.mem_of_mem_filter h
  refine ⟨hkeep, ?_⟩
  rcases mapCharTo_mem hm3 with rfl | ⟨hm2, hcr⟩
  · refine ⟨by decide, by decide, by decide⟩
  · rcases mapCharTo_mem hm2 with rfl | ⟨hm1, hff⟩
    · exact ⟨by decide, by decide, hcr⟩
    · exact ⟨(removeNull_mem hm1).2, hff, hcr⟩

theorem normalize_out (l : List Char) (c : Char) (h : c ∈ normalizeChars l) :
    (c = ' ' ∨ c ∈ l) ∧
      (c ≠ '\x00' ∧ c ≠ '\x0C' ∧ c ≠ '\x0D' ∧ c ≠ '\x0A' ∧ c ≠ '\x09') := by
  unfold normalizeChars at h
  have h1 := trim_mem h
  rcases collapse_mem _ _ h1 with rfl | h2
  · exact ⟨Or.inl rfl, by decide, by decide, by decide, by decide, by decide⟩
  rcases mapCharTo_mem h2 with rfl | ⟨h3, htab⟩
  · exact ⟨Or.inl rfl, by decide, by decide, by decide, by decide, by decide⟩
  rcases mapCharTo_mem h3 with rfl | ⟨h4, hlf⟩
  · exact ⟨Or.inl rfl, by decide, by decide, by decide, by decide, by decide⟩
  rcases mapCharTo_mem h4 with rfl | ⟨h5, hcr⟩
  · exact ⟨Or.inl rfl, by decide, by decide, by decide, by decide, by decide⟩
  rcases replaceCRLF_mem _ _ h5 with rfl | h6
  · exact ⟨Or.inl rfl, by decide, by decide, by decide, by decide, by decide⟩
  rcases mapCharTo_mem h6 with rfl | ⟨h7, hff⟩
  · exact ⟨Or.inl rfl, by decide, by decide, by decide, by decide, by decide⟩
  have h8 := removeNull_mem h7
  exact ⟨Or.inr h8.1, h8.2, hff, hcr, hlf, htab⟩

theorem sanitize_id (l : List Char)
    (h : ∀ c ∈ l, keepChar c = true ∧ c ≠ '\x00' ∧ c ≠ '\x0C' ∧ c ≠ '\x0D') :
    sanitizeTextChars l = l := by
  unfold sanitizeTextChars
  rw [removeNull_id l (fun c hc => (h c hc).2.1),
      mapCharTo_id _ _ l (fun c hc => (h c hc).2.2.1),
      mapCharTo_id _ _ l (fun c hc => (h c hc).2.2.2),
      List.filter_eq_self.mpr (fun c hc => (h c hc).1)]

theorem normalize_id (l : List Char)
    (h : ∀ c ∈ l, c ≠ '\x00' ∧ c ≠ '\x0C' ∧ c ≠ '\x0D' ∧ c ≠ '\x0A' ∧ c ≠ '\x09')
    (hadj : noAdjWs l) (htrim : trimWsChars l = l) :
    normalizeChars l = l := by
  unfold normalizeChars
  rw [removeNull_id l (fun c hc => (h c hc).1),
      mapCharTo_id _ _ l (fun c hc => (h c hc).2.1),
      replaceCRLF_id l (fun c hc => (h c hc).2.2.1),
      mapCharTo_id _ _ l (fun c hc => (h c hc).2.2.1),
      mapCharTo_id _ _ l (fun c hc => (h c hc).2.2.2.1),
      mapCharTo_id _ _ l (fun c hc => (h c hc).2.2.2.2),
      collapse_id l hadj, htrim]

/-- C9: the text sanitization pipeline applied by the batch invoker —
`normalizeForOneLine(sanitizeText(text))` — is idempotent: running an
already-sanitized string through the pipeline again leaves it unchanged. -/
theorem sanitize_pipeline_idempotent (s : String) :
    sanitizePipeline (sanitizePipeline s) = sanitizePipeline s := by
  unfold sanitizePipeline normalizeForOneLine sanitizeText
  simp only [List.toList_asString]
  have hmem : ∀ c ∈ normalizeChars (sanitizeTextChars s.toList),
      keepChar c = true ∧
        c ≠ '\x00' ∧ c ≠ '\x0C' ∧ c ≠ '\x0D' ∧ c ≠ '\x0A' ∧ c ≠ '\x09' := by
    intro c hc
    obtain ⟨hsrc, hnul, hff, hcr, hlf, htab⟩ := normalize_out _ c hc
    refine ⟨?_, hnul, hff, hcr, hlf, htab⟩
    rcases hsrc with rfl | hsan
    · decide
    · exact (sanitize_out _ c hsan).1
  have hsan : sanitizeTextChars (normalizeChars (sanitizeTextChars s.toList)) =
      normalizeChars (sanitizeTextChars s.toList) := by
    refine sanitize_id _ (fun c hc => ?_)
    obtain ⟨hk, hnul, hff, hcr, _, _⟩ := hmem c hc
    exact ⟨hk, hnul, hff, hcr⟩
  rw [hsan]
  have hadj : noAdjWs (normalizeChars (sanitizeTextChars s.toList)) := by
    unfold normalizeChars
    exact trim_chain (collapse_chain _)
  have htrim : trimWsChars (normalizeChars (sanitizeTextChars s.toList)) =
      normalizeChars (sanitizeTextChars s.toList) := by
    unfold normalizeChars
    exact trim_idem _
  rw [normalize_id _ (fun c hc => (hmem c hc).2) hadj htrim]
